import Mathlib

/-!
# Pharos: protocol codec, transport framing and client framing

A shallow embedding of the line-oriented wire codec of Pharos
(`protocol/parser.go`, `protocol/writer.go`, `protocol/request.go`,
`protocol/response.go`), of the frame construction in
`transport/tcp.go` (`TCPConn.Write`, `TCPConn.WriteUpdate`), of the
request framing and the request identifiers of the client library
(`client/conn.go`, `Conn.Set`, `Conn.getNextRequestID`), of the in-memory
store (`storage/inmemory_store.go`), whose JSON document library is a
parameter, and of the reader and writer pumps of a connection
(`TCPConn.ReadLoop`, `TCPConn.WriteLoop`), each run on its own on the inputs
it is given.

Conventions of the embedding:

* a byte is a natural number (`Byte`); a Go `[]byte` and a Go `string` are
  both `List Byte`;
* an `io.Reader` wrapped in a `bufio.Reader` is the list of bytes not yet
  consumed; a read past the end of the list is `io.EOF`;
* a function that returns `(value, error)` returns a `Res`, whose third
  constructor `panic` stands for a Go run-time panic (index or slice bound
  out of range);
* a function that mutates its receiver or an `io.Writer` returns the new
  state next to its result;
* a channel is the sequence of values sent on it so far and whether it is
  closed; the capacity of its buffer is not part of the embedding.
-/

namespace Pharos

/-- A byte of a Go byte slice or string. -/
abbrev Byte := Nat

/-! ## Errors -/

/-- The error values the codec can return: `io.EOF`, the sentinel errors of
`protocol/parser.go`, the wrapping error built by
`fmt.Errorf("Failed to parse '%s': %w", raw, wrapped)`, and the error built
by `errors.New(text)`. -/
inductive Err where
  | EOF
  | ErrUnknownCommand
  | ErrRequestTooShort
  | ErrRequestUnexpectedEOF
  | ErrRequestMissingSetSpace
  | ErrResponseMissingErrSpace
  | FailedToParse (raw : List Byte) (wrapped : Err)
  | New (text : List Byte)
  deriving DecidableEq, Repr

/-- The bytes of an ASCII string literal. -/
def ascii (s : String) : List Byte := s.toList.map Char.toNat

/-- The method `Error()` of an error value. -/
def Err.Error : Err → List Byte
  | .EOF => ascii "EOF"
  | .ErrUnknownCommand => ascii "Unknown command could not be parsed"
  | .ErrRequestTooShort => ascii "Request is malformed, it appears to be too short"
  | .ErrRequestUnexpectedEOF =>
      ascii "Request is malformed, received EOF before parsing a full command"
  | .ErrRequestMissingSetSpace =>
      ascii "Set command is malformed, it appears to be missing a space between SET and the key"
  | .ErrResponseMissingErrSpace =>
      ascii "Err command response is malformed, it appears to be missing a space between ERR and the error messsage"
  | .FailedToParse raw wrapped =>
      ascii "Failed to parse '" ++ raw ++ ascii "': " ++ wrapped.Error
  | .New text => text

/-- The function `errors.Is(e, target)`: `e` is `target`, or `e` wraps (with
`%w`) an error for which this holds. -/
def errorsIs : Err → Err → Bool
  | .FailedToParse raw wrapped, target =>
      decide (Err.FailedToParse raw wrapped = target) || errorsIs wrapped target
  | e, target => decide (e = target)

/-- The outcome of a Go function returning `(value, error)`: a value with a
nil error, a nil value with an error, or a run-time panic. -/
inductive Res (α : Type) where
  | ok (v : α)
  | err (e : Err)
  | panic
  deriving DecidableEq, Repr

/-! ## Byte-slice primitives -/

/-- The Go slice expression `s[lo:hi]` (`none` is the run-time panic for
bounds out of range). The bounds are integers, as `len(s)-1` is in Go. -/
def slice (s : List Byte) (lo hi : Int) : Option (List Byte) :=
  if 0 ≤ lo ∧ lo ≤ hi ∧ hi ≤ (s.length : Int) then
    some ((s.take hi.toNat).drop lo.toNat)
  else none

/-- The Go index expression `s[i]` (`none` is the run-time panic). -/
def index (s : List Byte) (i : Int) : Option Byte :=
  if 0 ≤ i ∧ i < (s.length : Int) then s.get? i.toNat else none

/-- The function `bytes.HasPrefix(s, p)`. -/
def HasPrefix (s p : List Byte) : Bool := p.isPrefixOf s

/-- The function `bytes.Join(s, sep)`. -/
def Join (s : List (List Byte)) (sep : List Byte) : List Byte := sep.intercalate s

/-- The state of a `bufio.Reader`: the bytes of the stream not yet consumed. -/
abbrev Reader := List Byte

/-- The method `(*bufio.Reader).ReadBytes(delim)`: the bytes up to and
including the first `delim` with a nil error, or all remaining bytes with
`io.EOF` when the stream ends first; next to it the reader afterwards. -/
def ReadBytes (delim : Byte) : Reader → (List Byte × Option Err) × Reader
  | [] => (([], some Err.EOF), [])
  | b :: bs =>
      if b = delim then (([b], none), bs)
      else
        let r := ReadBytes delim bs
        ((b :: r.1.1, r.1.2), r.2)

/-! ## `protocol/parser.go`: constants -/

/-- The bytes of `QUIT`. -/
def PrefixQuit : List Byte := [81, 85, 73, 84]
/-- The bytes of `PING`. -/
def PrefixPing : List Byte := [80, 73, 78, 71]
/-- The bytes of `GET`. -/
def PrefixGet : List Byte := [71, 69, 84]
/-- The bytes of `SET`. -/
def PrefixSet : List Byte := [83, 69, 84]
/-- The bytes of `PONG`. -/
def PrefixPong : List Byte := [80, 79, 78, 71]
/-- The bytes of `OK`. -/
def PrefixOk : List Byte := [79, 75]
/-- The bytes of `ERR`. -/
def PrefixErr : List Byte := [69, 82, 82]
/-- The byte `*` that starts the first line of every update. -/
def PrefixUpdate : List Byte := [42]

/-! ## `protocol/command.go`, `protocol/request.go`, `protocol/response.go` -/

/-- The type `Command` with its four constants. -/
inductive Command where
  | QUIT | PING | SET | GET
  deriving DecidableEq, Repr

/-- The type `ResponseType` with its five constants. -/
inductive ResponseType where
  | RespPong | RespOk | RespGet | RespErr | RespUpdate
  deriving DecidableEq, Repr

/-- The type `RequestID`, a `[4]byte` array. -/
structure RequestID where
  b0 : Byte
  b1 : Byte
  b2 : Byte
  b3 : Byte
  deriving DecidableEq, Repr

/-- The zero value of `RequestID`. -/
def RequestID.zero : RequestID := ⟨0, 0, 0, 0⟩

/-- The slice `requestID[:]`. -/
def RequestID.bytes (r : RequestID) : List Byte := [r.b0, r.b1, r.b2, r.b3]

/-- The statements `var requestID RequestID; copy(requestID[:], src)`: the
first four bytes of `src`, zero where `src` is shorter. -/
def RequestID.copy (src : List Byte) : RequestID :=
  ⟨src.getD 0 0, src.getD 1 0, src.getD 2 0, src.getD 3 0⟩

/-- The method `RequestID.String`. -/
def RequestID.String (r : RequestID) : List Byte := r.bytes

/-- The interface `Request` with its four implementations. -/
inductive Request where
  | QuitRequest (requestID : RequestID)
  | PingRequest (requestID : RequestID)
  | SetRequest (requestID : RequestID) (Key Value : List Byte)
  | GetRequest (requestID : RequestID) (Key : List Byte)
  deriving DecidableEq, Repr

/-- The method `GetRequestID`. -/
def Request.GetRequestID : Request → RequestID
  | .QuitRequest r => r
  | .PingRequest r => r
  | .SetRequest r _ _ => r
  | .GetRequest r _ => r

/-- The method `GetCommand`. -/
def Request.GetCommand : Request → Command
  | .QuitRequest _ => Command.QUIT
  | .PingRequest _ => Command.PING
  | .SetRequest _ _ _ => Command.SET
  | .GetRequest _ _ => Command.GET

/-- A value stored in `Response.Args` (`[]interface{}`): a byte slice or an
error. -/
inductive Arg where
  | bytes (b : List Byte)
  | error (e : Err)
  deriving DecidableEq, Repr

/-- The struct `Response` (`Typ` is the field `Type`). -/
structure Response where
  Typ : ResponseType
  RequestID : RequestID
  Args : List Arg
  Value : List Byte
  deriving DecidableEq, Repr

/-- The method `(*Response).ErrorOrNil`: `ok none` is a nil error; the type
assertion `r.Args[0].(error)` panics when there is no such argument. -/
def Response.ErrorOrNil (r : Response) : Res (Option Err) :=
  if r.Typ = ResponseType.RespErr then
    match r.Args with
    | Arg.error e :: _ => Res.ok (some e)
    | _ => Res.panic
  else Res.ok none

/-! ## `protocol/parser.go`: the readers -/

/-- The function `RemoveTrailingCR` (`none` is the panic of
`data[len(data)-1]` on an empty slice). -/
def RemoveTrailingCR (data : List Byte) : Option (List Byte) :=
  match index data ((data.length : Int) - 1) with
  | none => none
  | some b =>
      if b = 13 then slice data 0 ((data.length : Int) - 1)
      else some data

/-- The function `ReadRequest`, with the state of its buffered reader `r`
when it returns. -/
def ReadRequest (data : Reader) : Res Request × Reader :=
  let r := data
  match ReadBytes 10 r with
  | ((_, some err), r) => (Res.err err, r)
  | ((rawReq, none), r) =>
    if rawReq.length < 9 then (Res.err Err.ErrRequestTooShort, r)
    else
      match slice rawReq 0 4, slice rawReq 4 ((rawReq.length : Int) - 1) with
      | some idBytes, some rawCommand =>
        let requestID := RequestID.copy idBytes
        if HasPrefix rawCommand PrefixQuit then
          (Res.ok (Request.QuitRequest requestID), r)
        else if HasPrefix rawCommand PrefixPing then
          (Res.ok (Request.PingRequest requestID), r)
        else if HasPrefix rawCommand PrefixGet then
          match index rawCommand 3 with
          | none => (Res.panic, r)
          | some c =>
            if c ≠ 32 then
              (Res.err (Err.FailedToParse rawCommand Err.ErrRequestMissingSetSpace), r)
            else
              match (slice rawCommand 4 rawCommand.length).bind RemoveTrailingCR with
              | none => (Res.panic, r)
              | some key => (Res.ok (Request.GetRequest requestID key), r)
        else if HasPrefix rawCommand PrefixSet then
          match index rawCommand 3 with
          | none => (Res.panic, r)
          | some c =>
            if c ≠ 32 then
              (Res.err (Err.FailedToParse rawCommand Err.ErrRequestMissingSetSpace), r)
            else
              match (slice rawCommand 4 rawCommand.length).bind RemoveTrailingCR with
              | none => (Res.panic, r)
              | some key =>
                match ReadBytes 10 r with
                | ((_, some err), r) => (Res.err err, r)
                | ((value, none), r) =>
                  match (slice value 0 ((value.length : Int) - 1)).bind RemoveTrailingCR with
                  | none => (Res.panic, r)
                  | some v => (Res.ok (Request.SetRequest requestID key v), r)
        else
          (Res.err (Err.FailedToParse rawCommand Err.ErrUnknownCommand), r)
      | _, _ => (Res.panic, r)

/-- The function `ReadResponse`, with the state of its buffered reader `r`
when it returns. -/
def ReadResponse (data : Reader) : Res Response × Reader :=
  let r := data
  match ReadBytes 10 r with
  | ((_, some err), r) => (Res.err err, r)
  | ((rawResp, none), r) =>
    if rawResp.length < 9 then (Res.err Err.ErrRequestTooShort, r)
    else if index rawResp 0 = index PrefixUpdate 0 then
      match slice rawResp 1 ((rawResp.length : Int) - 1) with
      | none => (Res.panic, r)
      | some key =>
        match ReadBytes 10 r with
        | ((_, some err), r) => (Res.err err, r)
        | ((value, none), r) =>
          match (slice value 0 ((value.length : Int) - 1)).bind RemoveTrailingCR with
          | none => (Res.panic, r)
          | some v =>
            (Res.ok { Typ := ResponseType.RespUpdate, RequestID := RequestID.zero,
                      Args := [Arg.bytes key], Value := v }, r)
    else
      match slice rawResp 0 4, slice rawResp 4 ((rawResp.length : Int) - 1) with
      | some idBytes, some rawCommand =>
        let requestID := RequestID.copy idBytes
        if HasPrefix rawCommand PrefixPong then
          (Res.ok { Typ := ResponseType.RespPong, RequestID := requestID,
                    Args := [], Value := [] }, r)
        else if HasPrefix rawCommand PrefixOk then
          (Res.ok { Typ := ResponseType.RespOk, RequestID := requestID,
                    Args := [], Value := [] }, r)
        else if HasPrefix rawCommand PrefixGet then
          match ReadBytes 10 r with
          | ((_, some err), r) => (Res.err err, r)
          | ((value, none), r) =>
            match (slice value 0 ((value.length : Int) - 1)).bind RemoveTrailingCR with
            | none => (Res.panic, r)
            | some v =>
              (Res.ok { Typ := ResponseType.RespGet, RequestID := requestID,
                        Args := [], Value := v }, r)
        else if HasPrefix rawCommand PrefixErr then
          match index rawCommand 3 with
          | none => (Res.panic, r)
          | some c =>
            if c ≠ 32 then
              (Res.err (Err.FailedToParse rawCommand Err.ErrResponseMissingErrSpace), r)
            else
              match slice rawCommand 4 rawCommand.length with
              | none => (Res.panic, r)
              | some msg =>
                (Res.ok { Typ := ResponseType.RespErr, RequestID := requestID,
                          Args := [Arg.error (Err.New msg)], Value := [] }, r)
        else
          (Res.err (Err.FailedToParse rawCommand Err.ErrUnknownCommand), r)
      | _, _ => (Res.panic, r)

/-! ## `protocol/writer.go` -/

/-- The bytes of `OK\r\n`. -/
def OkTerminal : List Byte := [79, 75, 13, 10]
/-- The bytes of `\r\n`. -/
def Terminal : List Byte := [13, 10]

/-- An `io.Writer` over a state `σ`: its method `Write` returns the new state
and the error (the byte count is discarded by every caller). -/
structure Writer (σ : Type) where
  Write : σ → List Byte → σ × Option Err

/-- A sink that records every `Write` call it receives, in order, and never
fails (a `bytes.Buffer` whose writes are kept apart). -/
def recorder : Writer (List (List Byte)) where
  Write := fun w p => (w ++ [p], none)

/-- The function `PrependRequestID`. -/
def PrependRequestID (data : List Byte) (requestID : RequestID) : List Byte :=
  requestID.bytes ++ data

/-- The function `WriteOk`. -/
def WriteOk {σ : Type} (W : Writer σ) (w : σ) (requestID : RequestID) : σ × Option Err :=
  W.Write w (PrependRequestID OkTerminal requestID)

/-- The function `WriteString`. -/
def WriteString {σ : Type} (W : Writer σ) (w : σ) (requestID : RequestID) (s : List Byte) :
    σ × Option Err :=
  let b := s ++ [13, 10]
  W.Write w (PrependRequestID b requestID)

/-- The function `WriteLines`. -/
def WriteLines {σ : Type} (W : Writer σ) (w : σ) (requestID : RequestID)
    (ss : List (List Byte)) : σ × Option Err :=
  match ss with
  | [] => (w, none)
  | s0 :: rest =>
    let lines := [PrependRequestID s0 requestID] ++ rest
    let b := Join lines Terminal
    let b := b ++ [13, 10]
    W.Write w b

/-- The function `WriteError`; `fmt.Sprintf("ERR %s\r\n", errMsg)` is
`ERR `, the message and `\r\n`. -/
def WriteError {σ : Type} (W : Writer σ) (w : σ) (requestID : RequestID)
    (errMsg : List Byte) : σ × Option Err :=
  let b := [69, 82, 82, 32] ++ errMsg ++ [13, 10]
  W.Write w (PrependRequestID b requestID)

/-! ## `transport/tcp.go`: the outbound queue of a connection -/

/-- The struct `storage.Update`. -/
structure Update where
  Key : List Byte
  Value : List Byte
  deriving DecidableEq, Repr

/-- The part of `TCPConn` that `Write` and `WriteUpdate` touch: whether the
connection's context has been cancelled (`ctx.Done()` is closed) and the
frames sent on `writeQueue`, oldest first. -/
structure TCPConn where
  cancelled : Bool
  writeQueue : List (List Byte)
  deriving DecidableEq, Repr

/-- The method `(*TCPConn).isRunning`. -/
def TCPConn.isRunning (t : TCPConn) : Bool := !t.cancelled

/-- The method `(*TCPConn).Write`; it always returns a nil error. -/
def TCPConn.Write (t : TCPConn) (data : List Byte) : TCPConn × Option Err :=
  if t.isRunning then ({ t with writeQueue := t.writeQueue ++ [data] }, none)
  else (t, none)

/-- The method `(*TCPConn).WriteUpdate`; `(*bytes.Buffer).Write` appends to
the buffer and never returns an error. -/
def TCPConn.WriteUpdate (t : TCPConn) (update : Update) : TCPConn × Option Err :=
  let a := PrefixUpdate ++ update.Key
  let a := a ++ [10]
  let buf := a
  let buf := buf ++ (update.Value ++ [10])
  t.Write buf

/-! ## `client/conn.go`: the request the client library sends -/

/-- The write `Conn.Set` performs on its connection `c.conn` for the request
id `reqID` it has drawn: `protocol.WriteLines(c.conn, reqID,
protocol.PrefixSet, []byte(key), value)`, whose error it returns. Waiting for
the response on the channel is not part of the embedding. -/
def Conn.Set {σ : Type} (W : Writer σ) (conn : σ) (reqID : RequestID)
    (key value : List Byte) : σ × Option Err :=
  WriteLines W conn reqID [PrefixSet, key, value]

/-! ## `storage/inmemory_store.go` -/

/-- A channel `chan *Update`: the updates sent on it so far, oldest first, and
whether it has been closed. The capacity of its buffer (255) and the blocking
of a send while the buffer is full are not part of the embedding. -/
structure Chan where
  sent : List Update
  closed : Bool
  deriving DecidableEq, Repr

/-- The statement `make(chan *Update, 255)`. -/
def Chan.make : Chan := ⟨[], false⟩

/-- The send statement `ch <- u` (`none` is the panic of a send on a closed
channel). -/
def Chan.send (c : Chan) (u : Update) : Option Chan :=
  if c.closed then none else some { c with sent := c.sent ++ [u] }

/-- The statement `close(ch)` (`none` is the panic of closing a closed
channel). -/
def Chan.close (c : Chan) : Option Chan :=
  if c.closed then none else some { c with closed := true }

/-- The fields of `gjson.Result` the store reads. -/
structure Result where
  Raw : List Byte
  Index : Int
  deriving DecidableEq, Repr

/-- The functions of the JSON document library (`github.com/tidwall/sjson` and
`github.com/tidwall/gjson`) the store calls, taken as parameters: the values
of type `Val` it encodes, `sjson.SetBytes(json, path, value)` with its two
results, and `gjson.GetBytes(json, path)`. -/
structure JSONLib (Val : Type) where
  SetBytes : List Byte → List Byte → Val → List Byte × Option Err
  GetBytes : List Byte → List Byte → Result

/-- The contract of `gjson.Result.Index` as the library documents it ("index
of raw value in original json, zero means index unknown"): a non-zero index
is where the raw value stands in the document. -/
def JSONLib.IndexSound {Val : Type} (L : JSONLib Val) : Prop :=
  ∀ json path : List Byte, (L.GetBytes json path).Index ≠ 0 →
    slice json (L.GetBytes json path).Index
      ((L.GetBytes json path).Index + ((L.GetBytes json path).Raw.length : Int))
      = some (L.GetBytes json path).Raw

/-- An example document library, used to run the store on concrete inputs. Its
document holds one entry, written `path:value`: `SetBytes` replaces the
document by the new entry and `GetBytes` finds the value after `path:`. Where
nothing is stored it follows `sjson` and `gjson`: for the empty path
`SetBytes` returns the document it was given beside the error; for a path
with the array character `#`, which finds nothing in the document, `SetBytes`
returns the document unchanged with a nil error and `GetBytes` finds
nothing. -/
def entryLib : JSONLib (List Byte) where
  SetBytes := fun json path v =>
    if path = [] then (json, some (Err.New (ascii "path cannot be empty")))
    else if 35 ∈ path then (json, none)
    else (path ++ [58] ++ v, none)
  GetBytes := fun json path =>
    if 35 ∈ path then { Raw := [], Index := 0 }
    else if (path ++ [58]).isPrefixOf json then
      { Raw := json.drop (path.length + 1), Index := ((path.length + 1 : Nat) : Int) }
    else { Raw := [], Index := 0 }

/-- Values of type `interface{}` handed to `Set`: a byte slice, or a channel,
which `encoding/json` cannot marshal. -/
inductive GoValue where
  | bytes (b : List Byte)
  | channel
  deriving DecidableEq, Repr

/-- The example library on values of type `interface{}`: for a value that
cannot be marshalled `SetBytes` returns, as `sjson.SetBytes` does, a nil
document beside the error of `json.Marshal`; a byte slice is set as in
`entryLib`. -/
def valueLib : JSONLib GoValue where
  SetBytes := fun json path v =>
    match v with
    | GoValue.channel => ([], some (Err.New (ascii "json: unsupported type: chan int")))
    | GoValue.bytes b => entryLib.SetBytes json path b
  GetBytes := entryLib.GetBytes

/-- The struct `InmemoryStore`: the document `values`, the subscriber channels
`updateChans` in registration order, and whether the channel `stop` has been
closed. The mutex `mu` is not part of the embedding. -/
structure InmemoryStore where
  values : List Byte
  updateChans : List Chan
  stopped : Bool
  deriving DecidableEq, Repr

/-- The function `NewInmemoryStore`. -/
def NewInmemoryStore : InmemoryStore := ⟨[], [], false⟩

/-- The method `(*InmemoryStore).isRunning`. -/
def InmemoryStore.isRunning (i : InmemoryStore) : Bool := !i.stopped

/-- The loop `for _, updateChan := range chans { close(updateChan) }`: the
channels afterwards and whether the loop completed (`false` is the panic of
closing a closed channel, which leaves the later channels untouched). -/
def closeEach : List Chan → List Chan × Bool
  | [] => ([], true)
  | c :: cs =>
    match c.close with
    | none => (c :: cs, false)
    | some c1 =>
      let r := closeEach cs
      (c1 :: r.1, r.2)

/-- The loop `for _, updateChan := range chans { updateChan <- u }`: the
channels afterwards and whether the loop completed (`false` is the panic of a
send on a closed channel, which leaves the later channels untouched). -/
def sendEach (u : Update) : List Chan → List Chan × Bool
  | [] => ([], true)
  | c :: cs =>
    match c.send u with
    | none => (c :: cs, false)
    | some c1 =>
      let r := sendEach u cs
      (c1 :: r.1, r.2)

/-- The method `(*InmemoryStore).Close`: the store afterwards and the error
returned (`Res.ok ()` is a nil error). -/
def InmemoryStore.Close (i : InmemoryStore) : InmemoryStore × Res Unit :=
  let i := if i.isRunning then { i with stopped := true } else i
  let r := closeEach i.updateChans
  ({ i with updateChans := r.1 }, if r.2 then Res.ok () else Res.panic)

/-- The method `(*InmemoryStore).Set`: the store afterwards and the error
returned (`Res.ok ()` is a nil error). The first result of `sjson.SetBytes` is
assigned to `i.values` before the error is tested. The parameter `ctx` is not
used by the method; the `fmt.Printf` to standard output is left out. -/
def InmemoryStore.Set {Val : Type} (L : JSONLib Val) (i : InmemoryStore) (key : List Byte)
    (value : Val) : InmemoryStore × Res Unit :=
  let r := L.SetBytes i.values key value
  let i := { i with values := r.1 }
  match r.2 with
  | some err => (i, Res.err err)
  | none =>
    if i.isRunning then
      let s := sendEach { Key := key, Value := (L.GetBytes i.values key).Raw } i.updateChans
      ({ i with updateChans := s.1 }, if s.2 then Res.ok () else Res.panic)
    else (i, Res.ok ())

/-- The method `(*InmemoryStore).Get` (`ctx` is not used by the method). -/
def InmemoryStore.Get {Val : Type} (L : JSONLib Val) (i : InmemoryStore) (key : List Byte) :
    Res (List Byte) :=
  let result := L.GetBytes i.values key
  if result.Index = 0 then Res.ok result.Raw
  else
    match slice i.values result.Index (result.Index + (result.Raw.length : Int)) with
    | none => Res.panic
    | some b => Res.ok b

/-- The method `(*InmemoryStore).ListenToUpdates`: the store afterwards and
the position in `updateChans` of the channel returned. -/
def InmemoryStore.ListenToUpdates (i : InmemoryStore) : InmemoryStore × Nat :=
  let updateChan := Chan.make
  ({ i with updateChans := i.updateChans ++ [updateChan] }, i.updateChans.length)

/-- A sequence of calls `Set(k1, v1)`, ..., `Set(kn, vn)` in this order, stopped
at the first one that does not return a nil error: the store afterwards and
whether every call returned a nil error. -/
def InmemoryStore.SetAll {Val : Type} (L : JSONLib Val) (i : InmemoryStore) :
    List (List Byte × Val) → InmemoryStore × Bool
  | [] => (i, true)
  | kv :: rest =>
    match i.Set L kv.1 kv.2 with
    | (j, Res.ok ()) => InmemoryStore.SetAll L j rest
    | (j, _) => (j, false)

/-- The updates a sequence of calls `Set(k1, v1)`, ..., `Set(kn, vn)` is to
publish, in call order: the key of each call with the bytes `Get` returns for
that key right after the call (no bytes where `Get` does not return any). -/
def InmemoryStore.updatesOf {Val : Type} (L : JSONLib Val) (i : InmemoryStore) :
    List (List Byte × Val) → List Update
  | [] => []
  | kv :: rest =>
    let j := (i.Set L kv.1 kv.2).1
    { Key := kv.1, Value := match j.Get L kv.1 with
                            | Res.ok b => b
                            | _ => [] } :: InmemoryStore.updatesOf L j rest

/-- The method `(*InmemoryStore).Restore`: the store afterwards and the error
returned (`Res.ok ()` is a nil error). -/
def InmemoryStore.Restore (i : InmemoryStore) (values : List Byte) : InmemoryStore × Res Unit :=
  ({ i with values := values }, Res.ok ())

/-- The method `(*InmemoryStore).Backup`; `{}` is the bytes 123, 125. -/
def InmemoryStore.Backup (i : InmemoryStore) : Res (List Byte) :=
  if i.values.length = 0 then Res.ok [123, 125]
  else Res.ok i.values

/-! ## `transport/tcp.go`: the pumps of a connection -/

/-- A connection together with what its pumps reach through it: the `TCPConn`
itself (cancellation token and outbound queue), the store it serves, whether
the read half and the write half of its socket have been closed
(`conn.CloseRead()`, `conn.CloseWrite()`), and the frames written to the
socket so far. -/
structure ConnState where
  t : TCPConn
  store : InmemoryStore
  readClosed : Bool
  writeClosed : Bool
  written : List (List Byte)
  deriving DecidableEq, Repr

/-- The `TCPConn` as the `io.Writer` the protocol writers are given. -/
def TCPConn.writer : Writer TCPConn where
  Write := TCPConn.Write

/-- How one pass through the body of a pump's `for` loop ends: the loop goes
on to its next pass (`continue` or the end of the body), the function returns,
or a run-time panic unwinds it. -/
inductive Ctl where
  | next
  | exit
  | panic
  deriving DecidableEq, Repr

/-- How far a pump gets on the input it is given: it has returned, a panic
has unwound it, or it is blocked waiting for more input. -/
inductive LoopEnd where
  | returned
  | panicked
  | waiting
  deriving DecidableEq, Repr

/-- The method `(*TCPConn).dispatchSet`: the connection afterwards and the
error returned. The store is given the value bytes of the request; the
deadline of three seconds is not part of the embedding. The error built by
`fmt.Errorf("Failed to set %w", err)` keeps its text only. -/
def TCPConn.dispatchSet (L : JSONLib (List Byte)) (c : ConnState) (requestID : RequestID)
    (Key Value : List Byte) : ConnState × Res Unit :=
  match c.store.Set L Key Value with
  | (store, Res.err err) =>
    ({ c with store := store },
     Res.err (Err.New (ascii "Failed to set " ++ err.Error)))
  | (store, Res.panic) => ({ c with store := store }, Res.panic)
  | (store, Res.ok _) =>
    let w := WriteOk TCPConn.writer c.t requestID
    match w.2 with
    | some err =>
      ({ c with store := store, t := w.1 },
       Res.err (Err.New (ascii "Failed to ack set " ++ err.Error)))
    | none => ({ c with store := store, t := w.1 }, Res.ok ())

/-- The `default` case of the `select` in `(*TCPConn).ReadLoop`: one call of
`ReadRequest` on the bytes `data` the socket delivers to the fresh buffered
reader of this call, and the dispatch of the request. Logging is left out. -/
def TCPConn.ReadLoopBody (L : JSONLib (List Byte)) (c : ConnState) (data : Reader) :
    ConnState × Ctl :=
  match (ReadRequest data).1 with
  | Res.err _ => (c, Ctl.next)
  | Res.panic => (c, Ctl.panic)
  | Res.ok (Request.PingRequest requestID) =>
    let w := WriteString TCPConn.writer c.t requestID [80, 79, 78, 71]
    ({ c with t := w.1 }, Ctl.next)
  | Res.ok (Request.QuitRequest requestID) =>
    let w := WriteOk TCPConn.writer c.t requestID
    ({ c with t := w.1 }, Ctl.exit)
  | Res.ok (Request.SetRequest requestID Key Value) =>
    match TCPConn.dispatchSet L c requestID Key Value with
    | (c1, Res.panic) => (c1, Ctl.panic)
    | (c1, _) => (c1, Ctl.next)
  | Res.ok (Request.GetRequest requestID Key) =>
    match c.store.Get L Key with
    | Res.err _ => (c, Ctl.next)
    | Res.panic => (c, Ctl.panic)
    | Res.ok value =>
      let w := WriteLines TCPConn.writer c.t requestID [PrefixGet, value]
      ({ c with t := w.1 }, Ctl.next)

/-- The method `(*TCPConn).ReadLoop` on the inputs the socket delivers to the
successive calls of `ReadRequest` (an input that ends without a line feed is a
socket whose peer has closed: the call returns `io.EOF`). The deferred function
closes the read half of the socket when the method returns or panics. When the
inputs are used up the pump is blocked in `ReadRequest`. -/
def TCPConn.ReadLoop (L : JSONLib (List Byte)) : ConnState → List Reader → ConnState × LoopEnd
  | c, [] =>
    if !c.t.isRunning then ({ c with readClosed := true }, LoopEnd.returned)
    else (c, LoopEnd.waiting)
  | c, data :: rest =>
    if !c.t.isRunning then ({ c with readClosed := true }, LoopEnd.returned)
    else
      match TCPConn.ReadLoopBody L c data with
      | (c1, Ctl.next) => TCPConn.ReadLoop L c1 rest
      | (c1, Ctl.exit) => ({ c1 with readClosed := true }, LoopEnd.returned)
      | (c1, Ctl.panic) => ({ c1 with readClosed := true }, LoopEnd.panicked)

/-- The method `(*TCPConn).WriteLoop` on the passes of its loop in which a
frame is ready on the outbound queue: each pass is given the case the `select`
picks should the token have fired as well (`true` for `<-t.ctx.Done()`, Go
picking among ready cases at random) and the frame received, `none` being the
nil slice a receive from the closed queue yields. The pump returns on the
token and on a nil frame and writes every other frame, an empty one included,
to the socket (a failed write is logged and the loop goes on). The deferred
function closes the write half of the socket. When no frame is ready the pump
returns if the token has fired and is blocked in the `select` otherwise. -/
def TCPConn.WriteLoop : ConnState → List (Bool × Option (List Byte)) → ConnState × LoopEnd
  | c, [] =>
    if !c.t.isRunning then ({ c with writeClosed := true }, LoopEnd.returned)
    else (c, LoopEnd.waiting)
  | c, (pickDone, data) :: rest =>
    if !c.t.isRunning && pickDone then ({ c with writeClosed := true }, LoopEnd.returned)
    else
      match data with
      | none => ({ c with writeClosed := true }, LoopEnd.returned)
      | some d => TCPConn.WriteLoop { c with written := c.written ++ [d] } rest

/-! ## `client/conn.go`: request identifiers -/

/-- The function `binary.LittleEndian.PutUint32(reqID[:], v)`. -/
def PutUint32 (v : Nat) : RequestID :=
  ⟨v % 256, (v / 256) % 256, (v / 65536) % 256, (v / 16777216) % 256⟩

/-- The constant `math.MaxUint32`. -/
def MaxUint32 : Nat := 4294967295

/-- The method `(*Conn).getNextRequestID` on the value `requestId` of the
32-bit counter: the counter afterwards and the identifier returned. -/
def Conn.getNextRequestID (requestId : Nat) : Nat × RequestID :=
  let requestId := if requestId < MaxUint32 - 1 then (requestId + 1) % 4294967296 else 0
  (requestId, PutUint32 requestId)

/-! ## Lemmas on the primitives -/

/-- A stream whose first line feed follows the bytes `pre`: `ReadBytes` returns
that line, feed included, and leaves what follows. -/
theorem ReadBytes_line (pre rest : List Byte) (h : 10 ∉ pre) :
    ReadBytes 10 (pre ++ 10 :: rest) = ((pre ++ [10], none), rest) := by
  induction pre with
  | nil => simp [ReadBytes]
  | cons b bs ih =>
    have hb : b ≠ 10 := fun e => h (by simp [e])
    have hbs : 10 ∉ bs := fun e => h (by simp [e])
    simp [ReadBytes, hb, ih hbs]

/-- A stream without line feed: `ReadBytes` returns `io.EOF`. -/
theorem ReadBytes_eof (s : List Byte) (h : 10 ∉ s) :
    ReadBytes 10 s = ((s, some Err.EOF), []) := by
  induction s with
  | nil => simp [ReadBytes]
  | cons b bs ih =>
    have hb : b ≠ 10 := fun e => h (by simp [e])
    have hbs : 10 ∉ bs := fun e => h (by simp [e])
    simp [ReadBytes, hb, ih hbs]

/-- Slicing off a leading segment. -/
theorem slice_full_prefix (a m : List Byte) (n : Int) (hn : n = a.length) :
    slice (a ++ m) 0 n = some a := by
  subst hn
  simp [slice]

/-- Slicing out a middle segment. -/
theorem slice_middle (a m e : List Byte) (lo hi : Int) (hlo : lo = a.length)
    (hhi : hi = a.length + m.length) :
    slice (a ++ m ++ e) lo hi = some m := by
  subst hlo hhi
  have h2 : ((a.length : Int) + (m.length : Int)).toNat = a.length + m.length := by omega
  unfold slice
  rw [if_pos (by simp)]
  simp only [h2, Int.toNat_ofNat]
  rw [List.append_assoc, List.take_append_eq_append_take]
  simp [List.take_of_length_le]

/-- Slicing off the last byte, as in `value[:len(value)-1]`. -/
theorem slice_init (l : List Byte) (x : Byte) :
    slice (l ++ [x]) 0 (((l ++ [x]).length : Int) - 1) = some l := by
  have := slice_middle [] l [x] 0 (((l ++ [x]).length : Int) - 1) (by simp) (by simp)
  simpa using this

/-- Slicing off four leading bytes, as in `rawCommand[4:]`. -/
theorem slice_drop4 (a b c d : Byte) (m : List Byte) :
    slice (a :: b :: c :: d :: m) 4 ((a :: b :: c :: d :: m).length : Nat) = some m := by
  have := slice_middle [a, b, c, d] m [] 4 (((a :: b :: c :: d :: m).length : Nat) : Int)
    (by simp) (by simp; omega)
  simpa using this

/-- The last byte of a slice, as in `data[len(data)-1]`. -/
theorem index_append_singleton (l : List Byte) (x : Byte) :
    index (l ++ [x]) (((l ++ [x]).length : Int) - 1) = some x := by
  unfold index
  have h : (((l ++ [x]).length : Int) - 1).toNat = l.length := by simp
  rw [if_pos (by simp), h]
  simp

/-- The byte at index 3 of a slice of at least four bytes. -/
theorem index_three (a b c d : Byte) (m : List Byte) :
    index (a :: b :: c :: d :: m) 3 = some d := by
  unfold index
  rw [if_pos (by simp; omega)]
  rfl

/-- The byte at index 0 of a non-empty slice. -/
theorem index_zero_cons (a : Byte) (m : List Byte) : index (a :: m) 0 = some a := by
  unfold index
  rw [if_pos (by simp)]
  rfl

/-- A trailing carriage return is removed. -/
theorem RemoveTrailingCR_cr (k : List Byte) : RemoveTrailingCR (k ++ [13]) = some k := by
  unfold RemoveTrailingCR
  rw [index_append_singleton]
  show (if (13 : Byte) = 13 then slice (k ++ [13]) 0 (((k ++ [13]).length : Int) - 1)
    else some (k ++ [13])) = some k
  rw [if_pos rfl, slice_init]

/-- A non-empty slice not ending in a carriage return is returned unchanged. -/
theorem RemoveTrailingCR_keep (k : List Byte) (hne : k ≠ []) (hcr : k.getLast? ≠ some 13) :
    RemoveTrailingCR k = some k := by
  obtain ⟨l, x, rfl⟩ : ∃ l x, k = l ++ [x] := by
    rcases List.eq_nil_or_concat k with h | ⟨l, x, h⟩
    · exact absurd h hne
    · exact ⟨l, x, by simpa using h⟩
  have hx : x ≠ 13 := by
    intro e; apply hcr; simp [e]
  unfold RemoveTrailingCR
  rw [index_append_singleton]
  simp [hx]

/-- Copying the first four bytes of a slice that starts with an id gives the id. -/
theorem RequestID.copy_bytes_append (id : RequestID) (m : List Byte) : RequestID.copy (id.bytes ++ m) = id := by
  cases id; simp [RequestID.copy, RequestID.bytes]

/-- Reading the value line of a `SET` request, a `GET` response or an update:
the bytes of the line without the terminator and the optional carriage return. -/
theorem value_line (value c : List Byte) (hc : c = [] ∨ c = [13])
    (hne : c = [] → value ≠ [] ∧ value.getLast? ≠ some 13) :
    (slice (value ++ c ++ [10]) 0 (((value ++ c ++ [10]).length : Int) - 1)).bind
      RemoveTrailingCR = some value := by
  rw [slice_init]
  rcases hc with rfl | rfl
  · obtain ⟨h1, h2⟩ := hne rfl
    simpa using RemoveTrailingCR_keep value h1 h2
  · exact RemoveTrailingCR_cr value

/-- A line terminator is a line feed after an optional carriage return. -/
theorem terminator_cases (t : List Byte) (ht : t = [10] ∨ t = [13, 10]) :
    ∃ c, (c = [] ∨ c = [13]) ∧ 10 ∉ c ∧ t = c ++ [10] := by
  rcases ht with rfl | rfl
  · exact ⟨[], Or.inl rfl, by simp, rfl⟩
  · exact ⟨[13], Or.inr rfl, by simp, rfl⟩

/-- Bytes after a slice do not change whether a token no longer than the slice
is a prefix of it. -/
theorem HasPrefix_append (m e p : List Byte) (hlen : p.length ≤ m.length) :
    HasPrefix (m ++ e) p = HasPrefix m p := by
  unfold HasPrefix
  rw [Bool.eq_iff_iff]
  simp only [List.isPrefixOf_iff_prefix]
  constructor
  · intro h
    exact List.prefix_of_prefix_length_le h (List.prefix_append m e) hlen
  · intro h
    exact h.trans (List.prefix_append m e)

/-- A token that is no prefix of the stream is no prefix of the command. -/
theorem HasPrefix_false_of_not_prefix (m e p : List Byte) (hlen : p.length ≤ m.length)
    (h : ¬ p <+: m ++ e) : HasPrefix m p = false := by
  rw [← HasPrefix_append m e p hlen]
  unfold HasPrefix
  rw [Bool.eq_false_iff]
  intro hp
  exact h (List.isPrefixOf_iff_prefix.mp hp)

/-! ## Unfolding the readers on a well-formed first line -/

/-- The length test and the two slices of a first line made of an id and at
least four command bytes. -/
theorem first_line_facts (id : RequestID) (cmd : List Byte) (hlen : 4 ≤ cmd.length) :
    ¬ (id.bytes ++ cmd ++ [10]).length < 9 ∧
    slice (id.bytes ++ cmd ++ [10]) 0 4 = some id.bytes ∧
    slice (id.bytes ++ cmd ++ [10]) 4 (((id.bytes ++ cmd ++ [10]).length : Int) - 1) = some cmd := by
  refine ⟨?_, ?_, ?_⟩
  · simp [RequestID.bytes]; omega
  · rw [List.append_assoc]; exact slice_full_prefix _ _ _ (by simp [RequestID.bytes])
  · exact slice_middle _ _ _ _ _ (by simp [RequestID.bytes]) (by simp [RequestID.bytes]; omega)

/-- Unfolding of `ReadRequest` on a stream whose first line is a request id
free of line feeds followed by at least four command bytes. -/
theorem ReadRequest_line (id : RequestID) (rawCommand r : List Byte)
    (hid : 10 ∉ id.bytes) (hcmd : 10 ∉ rawCommand) (hlen : 4 ≤ rawCommand.length) :
    ReadRequest (id.bytes ++ rawCommand ++ 10 :: r) =
      if HasPrefix rawCommand PrefixQuit then
        (Res.ok (Request.QuitRequest id), r)
      else if HasPrefix rawCommand PrefixPing then
        (Res.ok (Request.PingRequest id), r)
      else if HasPrefix rawCommand PrefixGet then
        match index rawCommand 3 with
        | none => (Res.panic, r)
        | some c =>
          if c ≠ 32 then
            (Res.err (Err.FailedToParse rawCommand Err.ErrRequestMissingSetSpace), r)
          else
            match (slice rawCommand 4 rawCommand.length).bind RemoveTrailingCR with
            | none => (Res.panic, r)
            | some key => (Res.ok (Request.GetRequest id key), r)
      else if HasPrefix rawCommand PrefixSet then
        match index rawCommand 3 with
        | none => (Res.panic, r)
        | some c =>
          if c ≠ 32 then
            (Res.err (Err.FailedToParse rawCommand Err.ErrRequestMissingSetSpace), r)
          else
            match (slice rawCommand 4 rawCommand.length).bind RemoveTrailingCR with
            | none => (Res.panic, r)
            | some key =>
              match ReadBytes 10 r with
              | ((_, some err), r) => (Res.err err, r)
              | ((value, none), r) =>
                match (slice value 0 ((value.length : Int) - 1)).bind RemoveTrailingCR with
                | none => (Res.panic, r)
                | some v => (Res.ok (Request.SetRequest id key v), r)
      else
        (Res.err (Err.FailedToParse rawCommand Err.ErrUnknownCommand), r) := by
  obtain ⟨h9, hs1, hs2⟩ := first_line_facts id rawCommand hlen
  have hline : 10 ∉ id.bytes ++ rawCommand := by
    simp only [List.mem_append, not_or]; exact ⟨hid, hcmd⟩
  have hrb := ReadBytes_line _ r hline
  have hcopy := RequestID.copy_bytes_append id []
  rw [List.append_nil] at hcopy
  unfold ReadRequest
  simp only [hrb]
  rw [if_neg h9]
  simp only [hs1, hs2, hcopy]

/-- Unfolding of `ReadResponse` on a stream whose first line is a request id
free of line feeds, not starting with `*`, followed by at least four bytes. -/
theorem ReadResponse_line (id : RequestID) (rawCommand r : List Byte)
    (hid : 10 ∉ id.bytes) (hstar : id.b0 ≠ 42) (hcmd : 10 ∉ rawCommand)
    (hlen : 4 ≤ rawCommand.length) :
    ReadResponse (id.bytes ++ rawCommand ++ 10 :: r) =
      if HasPrefix rawCommand PrefixPong then
        (Res.ok { Typ := ResponseType.RespPong, RequestID := id, Args := [], Value := [] }, r)
      else if HasPrefix rawCommand PrefixOk then
        (Res.ok { Typ := ResponseType.RespOk, RequestID := id, Args := [], Value := [] }, r)
      else if HasPrefix rawCommand PrefixGet then
        match ReadBytes 10 r with
        | ((_, some err), r) => (Res.err err, r)
        | ((value, none), r) =>
          match (slice value 0 ((value.length : Int) - 1)).bind RemoveTrailingCR with
          | none => (Res.panic, r)
          | some v =>
            (Res.ok { Typ := ResponseType.RespGet, RequestID := id, Args := [], Value := v }, r)
      else if HasPrefix rawCommand PrefixErr then
        match index rawCommand 3 with
        | none => (Res.panic, r)
        | some c =>
          if c ≠ 32 then
            (Res.err (Err.FailedToParse rawCommand Err.ErrResponseMissingErrSpace), r)
          else
            match slice rawCommand 4 rawCommand.length with
            | none => (Res.panic, r)
            | some msg =>
              (Res.ok { Typ := ResponseType.RespErr, RequestID := id,
                        Args := [Arg.error (Err.New msg)], Value := [] }, r)
      else
        (Res.err (Err.FailedToParse rawCommand Err.ErrUnknownCommand), r) := by
  obtain ⟨h9, hs1, hs2⟩ := first_line_facts id rawCommand hlen
  have hline : 10 ∉ id.bytes ++ rawCommand := by
    simp only [List.mem_append, not_or]; exact ⟨hid, hcmd⟩
  have hrb := ReadBytes_line _ r hline
  have hcopy := RequestID.copy_bytes_append id []
  rw [List.append_nil] at hcopy
  have hupd : ¬ index (id.bytes ++ rawCommand ++ [10]) 0 = index PrefixUpdate 0 := by
    have e1 : index (id.bytes ++ rawCommand ++ [10]) 0 = some id.b0 := by
      simp only [RequestID.bytes, List.cons_append]; exact index_zero_cons _ _
    have e2 : index PrefixUpdate 0 = some 42 := index_zero_cons _ _
    rw [e1, e2]; simpa using hstar
  unfold ReadResponse
  simp only [hrb]
  rw [if_neg h9, if_neg hupd]
  simp only [hs1, hs2, hcopy]

/-- A line feed among the four id bytes ends the first line within them. -/
theorem ReadBytes_short_id (id : RequestID) (m : List Byte) (hid : 10 ∈ id.bytes) :
    (ReadBytes 10 (id.bytes ++ m)).1.2 = none ∧ (ReadBytes 10 (id.bytes ++ m)).1.1.length < 9 := by
  cases id with
  | mk a b c d =>
    have hid2 : a = 10 ∨ b = 10 ∨ c = 10 ∨ d = 10 := by
      simpa [RequestID.bytes, eq_comm] using hid
    simp only [RequestID.bytes, List.cons_append, List.nil_append, ReadBytes]
    split_ifs <;> first | (simp; done) | (exfalso; tauto)

/-- A request whose id contains a line feed is rejected as too short. -/
theorem ReadRequest_short_id (id : RequestID) (m : List Byte) (hid : 10 ∈ id.bytes) :
    (ReadRequest (id.bytes ++ m)).1 = Res.err Err.ErrRequestTooShort := by
  obtain ⟨h1, h2⟩ := ReadBytes_short_id id m hid
  rcases hx : ReadBytes 10 (id.bytes ++ m) with ⟨⟨l, e⟩, r⟩
  rw [hx] at h1 h2
  simp only at h1 h2
  subst h1
  unfold ReadRequest
  simp only [hx, h2, if_true]

/-- Decoding of a `QUIT` line. -/
theorem ReadRequest_quit_line (id : RequestID) (t rest : List Byte) (hid : 10 ∉ id.bytes)
    (ht : t = [10] ∨ t = [13, 10]) :
    ReadRequest (id.bytes ++ PrefixQuit ++ t ++ rest) = (Res.ok (Request.QuitRequest id), rest) := by
  obtain ⟨c, hc, hclf, rfl⟩ := terminator_cases t ht
  have hcmd : 10 ∉ 81 :: 85 :: 73 :: 84 :: c := by simp [hclf]
  have hin : id.bytes ++ PrefixQuit ++ (c ++ [10]) ++ rest
      = id.bytes ++ (81 :: 85 :: 73 :: 84 :: c) ++ 10 :: rest := by simp [PrefixQuit]
  rw [hin, ReadRequest_line id _ _ hid hcmd (by simp)]
  have h1 : HasPrefix (81 :: 85 :: 73 :: 84 :: c) PrefixQuit = true := by
    simp [HasPrefix, PrefixQuit]
  simp only [h1, if_true]

/-- Decoding of a `PING` line. -/
theorem ReadRequest_ping_line (id : RequestID) (t rest : List Byte) (hid : 10 ∉ id.bytes)
    (ht : t = [10] ∨ t = [13, 10]) :
    ReadRequest (id.bytes ++ PrefixPing ++ t ++ rest) = (Res.ok (Request.PingRequest id), rest) := by
  obtain ⟨c, hc, hclf, rfl⟩ := terminator_cases t ht
  have hcmd : 10 ∉ 80 :: 73 :: 78 :: 71 :: c := by simp [hclf]
  have hin : id.bytes ++ PrefixPing ++ (c ++ [10]) ++ rest
      = id.bytes ++ (80 :: 73 :: 78 :: 71 :: c) ++ 10 :: rest := by simp [PrefixPing]
  rw [hin, ReadRequest_line id _ _ hid hcmd (by simp)]
  have h1 : HasPrefix (80 :: 73 :: 78 :: 71 :: c) PrefixQuit = false := rfl
  have h2 : HasPrefix (80 :: 73 :: 78 :: 71 :: c) PrefixPing = true := by
    simp [HasPrefix, PrefixPing]
  simp only [h1, h2, if_true, Bool.false_eq_true, if_false]

/-! ## Round trips of the response writers through `ReadResponse` -/

/-- C1, evaluated on the code: for every request id, `WriteOk` writes the
eight bytes of the id followed by `OK\r\n`, and `ReadResponse` applied to them
fails with `ErrRequestTooShort`, because the line is shorter than the nine
bytes `ReadResponse` requires; no response of type OK is returned. -/
theorem ReadResponse_WriteOk_too_short (id : RequestID) :
    (WriteOk recorder [] id).1 = [id.bytes ++ [79, 75, 13, 10]] ∧
    (ReadResponse (WriteOk recorder [] id).1.flatten).1 = Res.err Err.ErrRequestTooShort := by
  refine ⟨rfl, ?_⟩
  cases id
  simp [WriteOk, recorder, PrependRequestID, OkTerminal, RequestID.bytes, ReadResponse, ReadBytes]
  split_ifs <;> simp

/-- Decoding of the frame `WriteError` writes, for an id and a message free of
line feeds: the error text is the message followed by the carriage return of
the terminator. -/
theorem ReadResponse_WriteError_line (id : RequestID) (errMsg : List Byte)
    (hid : 10 ∉ id.bytes) (hstar : id.b0 ≠ 42) (hmsg : 10 ∉ errMsg) :
    (ReadResponse (WriteError recorder [] id errMsg).1.flatten).1
      = Res.ok { Typ := ResponseType.RespErr, RequestID := id,
                 Args := [Arg.error (Err.New (errMsg ++ [13]))], Value := [] } := by
  have hw : (WriteError recorder [] id errMsg).1.flatten
      = id.bytes ++ (69 :: 82 :: 82 :: 32 :: (errMsg ++ [13])) ++ 10 :: [] := by
    simp [WriteError, recorder, PrependRequestID]
  have hcmd : 10 ∉ 69 :: 82 :: 82 :: 32 :: (errMsg ++ [13]) := by simp [hmsg]
  rw [hw, ReadResponse_line id _ _ hid hstar hcmd (by simp)]
  have h1 : HasPrefix (69 :: 82 :: 82 :: 32 :: (errMsg ++ [13])) PrefixPong = false := rfl
  have h2 : HasPrefix (69 :: 82 :: 82 :: 32 :: (errMsg ++ [13])) PrefixOk = false := rfl
  have h3 : HasPrefix (69 :: 82 :: 82 :: 32 :: (errMsg ++ [13])) PrefixGet = false := rfl
  have h4 : HasPrefix (69 :: 82 :: 82 :: 32 :: (errMsg ++ [13])) PrefixErr = true := rfl
  simp only [h1, h2, h3, h4, index_three, slice_drop4, Bool.false_eq_true, if_false, if_true,
    ne_eq, not_true_eq_false]

/-- C2, evaluated on the code at the id `1234` and the message `errMessage`:
`WriteError` writes `1234ERR errMessage\r\n`; `ReadResponse` returns a response
of type ERR with that id, but the text of its error is `errMessage\r`, with
the carriage return of the terminator still attached, and so differs from the
message. -/
theorem ReadResponse_WriteError_keeps_carriage_return :
    (WriteError recorder [] ⟨49, 50, 51, 52⟩ [101, 114, 114, 77, 101, 115, 115, 97, 103, 101]).1
      = [[49, 50, 51, 52, 69, 82, 82, 32, 101, 114, 114, 77, 101, 115, 115, 97, 103, 101, 13, 10]] ∧
    (ReadResponse (WriteError recorder [] ⟨49, 50, 51, 52⟩
        [101, 114, 114, 77, 101, 115, 115, 97, 103, 101]).1.flatten).1
      = Res.ok { Typ := ResponseType.RespErr, RequestID := ⟨49, 50, 51, 52⟩,
                 Args := [Arg.error (Err.New [101, 114, 114, 77, 101, 115, 115, 97, 103, 101, 13])],
                 Value := [] } ∧
    (Response.ErrorOrNil { Typ := ResponseType.RespErr, RequestID := ⟨49, 50, 51, 52⟩,
                           Args := [Arg.error
                             (Err.New [101, 114, 114, 77, 101, 115, 115, 97, 103, 101, 13])],
                           Value := [] })
      = Res.ok (some (Err.New [101, 114, 114, 77, 101, 115, 115, 97, 103, 101, 13])) ∧
    (Err.New [101, 114, 114, 77, 101, 115, 115, 97, 103, 101, 13]).Error
      = [101, 114, 114, 77, 101, 115, 115, 97, 103, 101] ++ [13] ∧
    (Err.New [101, 114, 114, 77, 101, 115, 115, 97, 103, 101, 13]).Error
      ≠ [101, 114, 114, 77, 101, 115, 115, 97, 103, 101] := by
  refine ⟨rfl, ?_, rfl, rfl, by decide⟩
  exact ReadResponse_WriteError_line ⟨49, 50, 51, 52⟩ _ (by decide) (by decide) (by decide)

/-- C3, evaluated on the code at the update of key `foo` to the value `"bar"`:
on a running connection `WriteUpdate` enqueues the frame `*foo\n"bar"\n`, and
`ReadResponse` applied to that frame fails with `ErrRequestTooShort`, because
the key line `*foo\n` is shorter than nine bytes; no response of type UPDATE is
returned. -/
theorem ReadResponse_WriteUpdate_short_key :
    TCPConn.WriteUpdate ⟨false, []⟩ ⟨[102, 111, 111], [34, 98, 97, 114, 34]⟩
      = (⟨false, [[42, 102, 111, 111, 10, 34, 98, 97, 114, 34, 10]]⟩, none) ∧
    (ReadResponse [42, 102, 111, 111, 10, 34, 98, 97, 114, 34, 10]).1
      = Res.err Err.ErrRequestTooShort := by
  exact ⟨rfl, rfl⟩

/-! ## The client's `SET` request at the server -/

/-- C4, evaluated on the code: for every request id, key and value, `Conn.Set`
writes the id followed by `SET\r\n`, the key, `\r\n`, the value and `\r\n`, and
the server's `ReadRequest` applied to these bytes returns no request: it fails
with `ErrRequestTooShort` (when the id contains a line feed) or with an error
wrapping `ErrRequestMissingSetSpace`, because the byte after `SET` is the
carriage return of the separator and not a space. -/
theorem ReadRequest_client_Set_rejected (id : RequestID) (key value : List Byte) :
    (Conn.Set recorder [] id key value).1
        = [id.bytes ++ [83, 69, 84, 13, 10] ++ key ++ [13, 10] ++ value ++ [13, 10]] ∧
    ((ReadRequest (Conn.Set recorder [] id key value).1.flatten).1
        = Res.err Err.ErrRequestTooShort ∨
     (ReadRequest (Conn.Set recorder [] id key value).1.flatten).1
        = Res.err (Err.FailedToParse [83, 69, 84, 13] Err.ErrRequestMissingSetSpace)) := by
  have hw : (Conn.Set recorder [] id key value).1
        = [id.bytes ++ [83, 69, 84, 13, 10] ++ key ++ [13, 10] ++ value ++ [13, 10]] := by
    simp [Conn.Set, WriteLines, recorder, Join, PrependRequestID, Terminal, PrefixSet,
      List.intercalate]
  refine ⟨hw, ?_⟩
  rw [hw]
  by_cases hid : 10 ∈ id.bytes
  · left
    have := ReadRequest_short_id id ([83, 69, 84, 13, 10] ++ key ++ [13, 10] ++ value ++ [13, 10]) hid
    simpa using this
  · right
    have hin : [id.bytes ++ [83, 69, 84, 13, 10] ++ key ++ [13, 10] ++ value ++ [13, 10]].flatten
        = id.bytes ++ [83, 69, 84, 13] ++ 10 :: (key ++ [13, 10] ++ value ++ [13, 10]) := by
      simp
    rw [hin, ReadRequest_line id _ _ hid (by simp) (by simp)]
    rfl

/-! ## The server's `GET` reply at the client -/

/-- The `GET` reply of an id without line feed: for every request id that
contains no line feed and whose first byte is not `*`, and every value
containing no line feed, `ReadResponse` applied to the bytes
`WriteLines(id, "GET", value)` writes returns a response of type GET carrying
that id whose `Value` is the value. -/
theorem ReadResponse_WriteLines_get (id : RequestID) (value : List Byte)
    (hid : 10 ∉ id.bytes) (hstar : id.b0 ≠ 42) (hv : 10 ∉ value) :
    (ReadResponse (WriteLines recorder [] id [PrefixGet, value]).1.flatten).1
      = Res.ok { Typ := ResponseType.RespGet, RequestID := id, Args := [], Value := value } := by
  have hw : (WriteLines recorder [] id [PrefixGet, value]).1.flatten
      = id.bytes ++ [71, 69, 84, 13] ++ 10 :: ((value ++ [13]) ++ 10 :: []) := by
    simp [WriteLines, recorder, Join, PrependRequestID, Terminal, PrefixGet, List.intercalate]
  have hvline : 10 ∉ value ++ [13] := by simp [hv]
  rw [hw, ReadResponse_line id _ _ hid hstar (by simp) (by simp)]
  have h1 : HasPrefix [71, 69, 84, 13] PrefixPong = false := rfl
  have h2 : HasPrefix [71, 69, 84, 13] PrefixOk = false := rfl
  have h3 : HasPrefix [71, 69, 84, 13] PrefixGet = true := rfl
  have hval := value_line value [13] (Or.inr rfl) (by simp)
  simp only [h1, h2, h3, Bool.false_eq_true, if_false, if_true, ReadBytes_line _ [] hvline,
    hval]

/-- A response whose id contains a line feed is rejected as too short. -/
theorem ReadResponse_short_id (id : RequestID) (m : List Byte) (hid : 10 ∈ id.bytes) :
    (ReadResponse (id.bytes ++ m)).1 = Res.err Err.ErrRequestTooShort := by
  obtain ⟨h1, h2⟩ := ReadBytes_short_id id m hid
  rcases hx : ReadBytes 10 (id.bytes ++ m) with ⟨⟨l, e⟩, r⟩
  rw [hx] at h1 h2
  simp only at h1 h2
  subst h1
  unfold ReadResponse
  simp only [hx, h2, if_true]

/-- C5, evaluated on the code: for every request id one of whose four bytes is
a line feed and every value, `ReadResponse` applied to the bytes
`WriteLines(id, "GET", value)` writes (the server's GET reply) returns no
response: it fails with `ErrRequestTooShort`, because the line feed among the
id bytes ends the first line before its ninth byte and the id is taken from
the line only after the test of its length. -/
theorem ReadResponse_get_linefeed_id_rejected (id : RequestID) (value : List Byte)
    (hid : 10 ∈ id.bytes) :
    (ReadResponse (WriteLines recorder [] id [PrefixGet, value]).1.flatten).1
      = Res.err Err.ErrRequestTooShort := by
  have hw : (WriteLines recorder [] id [PrefixGet, value]).1.flatten
      = id.bytes ++ ([71, 69, 84, 13, 10] ++ value ++ [13, 10]) := by
    simp [WriteLines, recorder, Join, PrependRequestID, Terminal, PrefixGet, List.intercalate]
  rw [hw]
  exact ReadResponse_short_id id _ hid

/-- The tenth id the client library issues, of bytes `0x0A 0x00 0x00 0x00`, is
such an id: it does not start with `*`, the value `"bar"` contains no line
feed, and `ReadResponse` fails with `ErrRequestTooShort` on the reply
`WriteLines` writes for it. -/
theorem ReadResponse_WriteLines_get_linefeed_id :
    Conn.getNextRequestID 9 = (10, ⟨10, 0, 0, 0⟩) ∧
    10 ∈ (RequestID.mk 10 0 0 0).bytes ∧
    (RequestID.mk 10 0 0 0).b0 ≠ 42 ∧ 10 ∉ [34, 98, 97, 114, 34] ∧
    (ReadResponse (WriteLines recorder [] ⟨10, 0, 0, 0⟩
        [PrefixGet, [34, 98, 97, 114, 34]]).1.flatten).1
      = Res.err Err.ErrRequestTooShort :=
  ⟨rfl, by decide, by decide, by decide,
   ReadResponse_get_linefeed_id_rejected ⟨10, 0, 0, 0⟩ [34, 98, 97, 114, 34] (by decide)⟩

/-! ## Decoding requests -/

/-- Decoding of a `SET` request whose id has no line feed: for every such id
and every key and value that are non-empty, contain no line feed and do not
end in a carriage return, `ReadRequest` applied to the id, `SET `, the key, a
terminator, the value and a terminator, each terminator being `\n` or `\r\n`,
returns the `SetRequest` with that id, `Key` the key and `Value` the value. -/
theorem ReadRequest_set (id : RequestID) (key value t1 t2 rest : List Byte)
    (hid : 10 ∉ id.bytes)
    (hkne : key ≠ []) (hklf : 10 ∉ key) (hkcr : key.getLast? ≠ some 13)
    (hvne : value ≠ []) (hvlf : 10 ∉ value) (hvcr : value.getLast? ≠ some 13)
    (ht1 : t1 = [10] ∨ t1 = [13, 10]) (ht2 : t2 = [10] ∨ t2 = [13, 10]) :
    ReadRequest (id.bytes ++ [83, 69, 84, 32] ++ key ++ t1 ++ value ++ t2 ++ rest)
      = (Res.ok (Request.SetRequest id key value), rest) := by
  obtain ⟨c1, hc1, hc1lf, rfl⟩ := terminator_cases t1 ht1
  obtain ⟨c2, hc2, hc2lf, rfl⟩ := terminator_cases t2 ht2
  have hstrip : RemoveTrailingCR (key ++ c1) = some key := by
    rcases hc1 with rfl | rfl
    · simpa using RemoveTrailingCR_keep key hkne hkcr
    · exact RemoveTrailingCR_cr key
  have hcmd : 10 ∉ 83 :: 69 :: 84 :: 32 :: (key ++ c1) := by
    simp [hklf, hc1lf]
  have hin : id.bytes ++ [83, 69, 84, 32] ++ key ++ (c1 ++ [10]) ++ value ++ (c2 ++ [10]) ++ rest
      = id.bytes ++ (83 :: 69 :: 84 :: 32 :: (key ++ c1)) ++ 10 :: ((value ++ c2) ++ 10 :: rest) := by
    simp
  have hvline : 10 ∉ value ++ c2 := by
    simp only [List.mem_append, not_or]; exact ⟨hvlf, hc2lf⟩
  rw [hin, ReadRequest_line id _ _ hid hcmd (by simp)]
  have h1 : HasPrefix (83 :: 69 :: 84 :: 32 :: (key ++ c1)) PrefixQuit = false := rfl
  have h2 : HasPrefix (83 :: 69 :: 84 :: 32 :: (key ++ c1)) PrefixPing = false := rfl
  have h3 : HasPrefix (83 :: 69 :: 84 :: 32 :: (key ++ c1)) PrefixGet = false := rfl
  have h4 : HasPrefix (83 :: 69 :: 84 :: 32 :: (key ++ c1)) PrefixSet = true := rfl
  simp only [h1, h2, h3, h4, index_three, slice_drop4, hstrip, Option.bind, Bool.false_eq_true,
    if_false, if_true, ne_eq, not_true_eq_false, ReadBytes_line _ rest hvline]
  have hv := value_line value c2 hc2 (fun _ => ⟨hvne, hvcr⟩)
  simp only [Option.bind] at hv
  simp only [hv]

/-- C6, evaluated on the code: for every request id one of whose four bytes is
a line feed, and every key, value and pair of terminators, `ReadRequest`
applied to the id, `SET `, the key, a terminator, the value and a terminator
returns no request: it fails with `ErrRequestTooShort`, because the line feed
among the id bytes ends the first line before its ninth byte and the id is
taken from the line only after the test of its length. -/
theorem ReadRequest_set_linefeed_id_rejected (id : RequestID) (key value t1 t2 : List Byte)
    (hid : 10 ∈ id.bytes) :
    (ReadRequest (id.bytes ++ [83, 69, 84, 32] ++ key ++ t1 ++ value ++ t2)).1
      = Res.err Err.ErrRequestTooShort := by
  have hin : id.bytes ++ [83, 69, 84, 32] ++ key ++ t1 ++ value ++ t2
      = id.bytes ++ ([83, 69, 84, 32] ++ key ++ t1 ++ value ++ t2) := by simp
  rw [hin]
  exact ReadRequest_short_id id _ hid

/-- The tenth id the client library issues, of bytes `0x0A 0x00 0x00 0x00`, is
such an id: with the key `key` and the value `value`, both non-empty, without
line feed and not ending in a carriage return, and both terminators `\n`,
`ReadRequest` fails with `ErrRequestTooShort` and returns no request. -/
theorem ReadRequest_set_linefeed_id :
    Conn.getNextRequestID 9 = (10, ⟨10, 0, 0, 0⟩) ∧
    10 ∈ (RequestID.mk 10 0 0 0).bytes ∧
    ([107, 101, 121] : List Byte) ≠ [] ∧ 10 ∉ [107, 101, 121] ∧
    ([107, 101, 121] : List Byte).getLast? ≠ some 13 ∧
    ([118, 97, 108, 117, 101] : List Byte) ≠ [] ∧ 10 ∉ [118, 97, 108, 117, 101] ∧
    ([118, 97, 108, 117, 101] : List Byte).getLast? ≠ some 13 ∧
    (ReadRequest ((RequestID.mk 10 0 0 0).bytes ++ [83, 69, 84, 32] ++ [107, 101, 121]
        ++ [10] ++ [118, 97, 108, 117, 101] ++ [10])).1
      = Res.err Err.ErrRequestTooShort :=
  ⟨rfl, by decide, by decide, by decide, by decide, by decide, by decide, by decide,
   ReadRequest_set_linefeed_id_rejected ⟨10, 0, 0, 0⟩ [107, 101, 121] [118, 97, 108, 117, 101]
     [10] [10] (by decide)⟩

/-- Decoding of a `GET` request whose id has no line feed: for every such id
and every key that is non-empty, contains no line feed and does not end in a
carriage return, `ReadRequest` applied to the id, `GET `, the key and a
terminator `\n` or `\r\n` returns the `GetRequest` with that id whose `Key` is
the key, the stream standing after the first line. -/
theorem ReadRequest_get (id : RequestID) (key t rest : List Byte)
    (hid : 10 ∉ id.bytes) (hne : key ≠ []) (hlf : 10 ∉ key) (hcr : key.getLast? ≠ some 13)
    (ht : t = [10] ∨ t = [13, 10]) :
    ReadRequest (id.bytes ++ [71, 69, 84, 32] ++ key ++ t ++ rest)
      = (Res.ok (Request.GetRequest id key), rest) := by
  obtain ⟨c, hc, rfl⟩ : ∃ c, (c = [] ∨ c = [13]) ∧ t = c ++ [10] := by
    rcases ht with rfl | rfl
    · exact ⟨[], Or.inl rfl, rfl⟩
    · exact ⟨[13], Or.inr rfl, rfl⟩
  have hstrip : RemoveTrailingCR (key ++ c) = some key := by
    rcases hc with rfl | rfl
    · simpa using RemoveTrailingCR_keep key hne hcr
    · exact RemoveTrailingCR_cr key
  have hc10 : 10 ∉ c := by rcases hc with rfl | rfl <;> simp
  have hcmd : 10 ∉ 71 :: 69 :: 84 :: 32 :: (key ++ c) := by
    simp [hlf, hc10]
  have hin : id.bytes ++ [71, 69, 84, 32] ++ key ++ (c ++ [10]) ++ rest
      = id.bytes ++ (71 :: 69 :: 84 :: 32 :: (key ++ c)) ++ 10 :: rest := by simp
  rw [hin, ReadRequest_line id _ rest hid hcmd (by simp)]
  have h1 : HasPrefix (71 :: 69 :: 84 :: 32 :: (key ++ c)) PrefixQuit = false := rfl
  have h2 : HasPrefix (71 :: 69 :: 84 :: 32 :: (key ++ c)) PrefixPing = false := rfl
  have h3 : HasPrefix (71 :: 69 :: 84 :: 32 :: (key ++ c)) PrefixGet = true := rfl
  simp only [h1, h2, h3, index_three, slice_drop4, hstrip, Option.bind, Bool.false_eq_true,
    if_false, if_true, ne_eq, not_true_eq_false]

/-- C7, evaluated on the code: for every request id one of whose four bytes is
a line feed, and every key and terminator, `ReadRequest` applied to the id,
`GET `, the key and the terminator returns no request: it fails with
`ErrRequestTooShort`, because the line feed among the id bytes ends the first
line before its ninth byte and the id is taken from the line only after the
test of its length. -/
theorem ReadRequest_get_linefeed_id_rejected (id : RequestID) (key t : List Byte)
    (hid : 10 ∈ id.bytes) :
    (ReadRequest (id.bytes ++ [71, 69, 84, 32] ++ key ++ t)).1
      = Res.err Err.ErrRequestTooShort := by
  have hin : id.bytes ++ [71, 69, 84, 32] ++ key ++ t
      = id.bytes ++ ([71, 69, 84, 32] ++ key ++ t) := by simp
  rw [hin]
  exact ReadRequest_short_id id _ hid

/-- The tenth id the client library issues, of bytes `0x0A 0x00 0x00 0x00`, is
such an id: with the key `key`, non-empty, without line feed and not ending in
a carriage return, and the terminator `\n`, `ReadRequest` fails with
`ErrRequestTooShort` and returns no request. -/
theorem ReadRequest_get_linefeed_id :
    Conn.getNextRequestID 9 = (10, ⟨10, 0, 0, 0⟩) ∧
    10 ∈ (RequestID.mk 10 0 0 0).bytes ∧
    ([107, 101, 121] : List Byte) ≠ [] ∧ 10 ∉ [107, 101, 121] ∧
    ([107, 101, 121] : List Byte).getLast? ≠ some 13 ∧
    (ReadRequest ((RequestID.mk 10 0 0 0).bytes ++ [71, 69, 84, 32] ++ [107, 101, 121]
        ++ [10])).1
      = Res.err Err.ErrRequestTooShort :=
  ⟨rfl, by decide, by decide, by decide, by decide,
   ReadRequest_get_linefeed_id_rejected ⟨10, 0, 0, 0⟩ [107, 101, 121] [10] (by decide)⟩

/-- Decoding of `QUIT` and `PING` requests whose id has no line feed: for every
such id and each of the two tokens, `ReadRequest` applied to the id, the token
and a terminator `\n` or `\r\n` succeeds and returns the request of that kind,
whose `GetRequestID` is the id and whose `GetCommand` is the token. -/
theorem ReadRequest_quit_ping (id : RequestID) (t rest : List Byte) (hid : 10 ∉ id.bytes)
    (ht : t = [10] ∨ t = [13, 10]) :
    (ReadRequest (id.bytes ++ PrefixQuit ++ t ++ rest) = (Res.ok (Request.QuitRequest id), rest) ∧
      (Request.QuitRequest id).GetRequestID = id ∧
      (Request.QuitRequest id).GetCommand = Command.QUIT) ∧
    (ReadRequest (id.bytes ++ PrefixPing ++ t ++ rest) = (Res.ok (Request.PingRequest id), rest) ∧
      (Request.PingRequest id).GetRequestID = id ∧
      (Request.PingRequest id).GetCommand = Command.PING) :=
  ⟨⟨ReadRequest_quit_line id t rest hid ht, rfl, rfl⟩,
   ⟨ReadRequest_ping_line id t rest hid ht, rfl, rfl⟩⟩

/-- C8, evaluated on the code: for every request id one of whose four bytes is
a line feed, each of the tokens `QUIT` and `PING` and every terminator,
`ReadRequest` applied to the id, the token and the terminator returns no
request: it fails with `ErrRequestTooShort`, because the line feed among the
id bytes ends the first line before its ninth byte and the id is taken from
the line only after the test of its length. -/
theorem ReadRequest_quit_ping_linefeed_id_rejected (id : RequestID) (t : List Byte)
    (hid : 10 ∈ id.bytes) :
    (ReadRequest (id.bytes ++ PrefixQuit ++ t)).1 = Res.err Err.ErrRequestTooShort ∧
    (ReadRequest (id.bytes ++ PrefixPing ++ t)).1 = Res.err Err.ErrRequestTooShort := by
  have hq : id.bytes ++ PrefixQuit ++ t = id.bytes ++ (PrefixQuit ++ t) := by simp
  have hp : id.bytes ++ PrefixPing ++ t = id.bytes ++ (PrefixPing ++ t) := by simp
  rw [hq, hp]
  exact ⟨ReadRequest_short_id id _ hid, ReadRequest_short_id id _ hid⟩

/-- The tenth id the client library issues, of bytes `0x0A 0x00 0x00 0x00`, is
such an id: the frames `WriteString` writes for it with `QUIT` and with `PING`
(the calls of the client's `Quit` and `Ping`) are the id, the token and `\r\n`,
and `ReadRequest` fails with `ErrRequestTooShort` on both. -/
theorem ReadRequest_quit_ping_linefeed_id :
    Conn.getNextRequestID 9 = (10, ⟨10, 0, 0, 0⟩) ∧
    10 ∈ (RequestID.mk 10 0 0 0).bytes ∧
    (WriteString recorder [] ⟨10, 0, 0, 0⟩ PrefixQuit).1
      = [(RequestID.mk 10 0 0 0).bytes ++ PrefixQuit ++ [13, 10]] ∧
    (WriteString recorder [] ⟨10, 0, 0, 0⟩ PrefixPing).1
      = [(RequestID.mk 10 0 0 0).bytes ++ PrefixPing ++ [13, 10]] ∧
    (ReadRequest ((RequestID.mk 10 0 0 0).bytes ++ PrefixQuit ++ [13, 10])).1
      = Res.err Err.ErrRequestTooShort ∧
    (ReadRequest ((RequestID.mk 10 0 0 0).bytes ++ PrefixPing ++ [13, 10])).1
      = Res.err Err.ErrRequestTooShort :=
  ⟨rfl, by decide, rfl, rfl,
   ReadRequest_quit_ping_linefeed_id_rejected ⟨10, 0, 0, 0⟩ [13, 10] (by decide)⟩

/-- C9: for every input whose first line, line feed included, is shorter than
nine bytes, `ReadRequest` fails with `ErrRequestTooShort` and returns no
request. -/
theorem ReadRequest_too_short (line rest : List Byte) (hlf : 10 ∉ line) (hlen : (line ++ [10]).length < 9) :
    ReadRequest (line ++ 10 :: rest) = (Res.err Err.ErrRequestTooShort, rest) := by
  unfold ReadRequest
  simp only [ReadBytes_line line rest hlf]
  rw [if_pos hlen]

/-- Witness of C9 at `hello\n`. -/
theorem ReadRequest_too_short_witness :
    ReadRequest ([104, 101, 108, 108, 111] ++ 10 :: []) = (Res.err Err.ErrRequestTooShort, []) :=
  ReadRequest_too_short [104, 101, 108, 108, 111] [] (by decide) (by decide)

/-- C10: for every input whose first line, line feed included, has at least
nine bytes and whose bytes after the first four (the request id) begin with
none of the tokens `QUIT`, `PING`, `GET`, `SET`, `ReadRequest` returns no
request and fails with an error for which `errors.Is(err, ErrUnknownCommand)`
holds. -/
theorem ReadRequest_unknown_command (line rest : List Byte) (hlf : 10 ∉ line)
    (hlen : 9 ≤ (line ++ [10]).length)
    (hq : ¬ PrefixQuit <+: (line ++ 10 :: rest).drop 4)
    (hp : ¬ PrefixPing <+: (line ++ 10 :: rest).drop 4)
    (hg : ¬ PrefixGet <+: (line ++ 10 :: rest).drop 4)
    (hs : ¬ PrefixSet <+: (line ++ 10 :: rest).drop 4) :
    ∃ e, ReadRequest (line ++ 10 :: rest) = (Res.err e, rest) ∧
      errorsIs e Err.ErrUnknownCommand = true := by
  match line, hlf, hlen, hq, hp, hg, hs with
  | a :: b :: c :: d :: m, hlf, hlen, hq, hp, hg, hs =>
    have hm : 4 ≤ m.length := by
      simp only [List.length_append, List.length_cons, List.length_nil] at hlen; omega
    have hid : 10 ∉ (RequestID.mk a b c d).bytes := by
      intro h; apply hlf
      simp only [RequestID.bytes, List.mem_cons, List.mem_nil_iff, or_false] at h
      simp only [List.mem_cons]; tauto
    have hcmd : 10 ∉ m := by
      intro h; apply hlf; simp [h]
    have hin : (a :: b :: c :: d :: m) ++ 10 :: rest
        = (RequestID.mk a b c d).bytes ++ m ++ 10 :: rest := by simp [RequestID.bytes]
    have hdrop : ((a :: b :: c :: d :: m) ++ 10 :: rest).drop 4 = m ++ 10 :: rest := by simp
    rw [hdrop] at hq hp hg hs
    have h1 := HasPrefix_false_of_not_prefix m _ _ (by simpa [PrefixQuit] using hm) hq
    have h2 := HasPrefix_false_of_not_prefix m _ _ (by simpa [PrefixPing] using hm) hp
    have h3 := HasPrefix_false_of_not_prefix m _ _ (by simp [PrefixGet]; omega) hg
    have h4 := HasPrefix_false_of_not_prefix m _ _ (by simp [PrefixSet]; omega) hs
    refine ⟨Err.FailedToParse m Err.ErrUnknownCommand, ?_, ?_⟩
    · rw [hin, ReadRequest_line _ m rest hid hcmd hm]
      simp only [h1, h2, h3, h4, Bool.false_eq_true, if_false]
    · simp [errorsIs]

/-- Witness of C10 at `1234EVIL\n`. -/
theorem ReadRequest_unknown_command_witness :
    ∃ e, ReadRequest ([49, 50, 51, 52, 69, 86, 73, 76] ++ 10 :: []) = (Res.err e, []) ∧
      errorsIs e Err.ErrUnknownCommand = true :=
  ReadRequest_unknown_command [49, 50, 51, 52, 69, 86, 73, 76] [] (by decide) (by decide)
    (by decide) (by decide) (by decide) (by decide)

/-- C11: for every input whose first line, line feed included, has at least
nine bytes and whose bytes after the first four (the request id) begin with
`GET` or `SET` and have no space as their next byte, `ReadRequest` returns no
request and fails with an error for which
`errors.Is(err, ErrRequestMissingSetSpace)` holds; for `SET` the value line is
not read. -/
theorem ReadRequest_missing_space (line rest : List Byte) (hlf : 10 ∉ line)
    (hlen : 9 ≤ (line ++ [10]).length)
    (htok : PrefixGet <+: (line ++ 10 :: rest).drop 4 ∨ PrefixSet <+: (line ++ 10 :: rest).drop 4)
    (hsp : ((line ++ 10 :: rest).drop 4).get? 3 ≠ some 32) :
    ∃ e, ReadRequest (line ++ 10 :: rest) = (Res.err e, rest) ∧
      errorsIs e Err.ErrRequestMissingSetSpace = true := by
  match line, hlf, hlen, htok, hsp with
  | a :: b :: c :: d :: x0 :: x1 :: x2 :: x3 :: m, hlf, _, htok, hsp =>
    have hid : 10 ∉ (RequestID.mk a b c d).bytes := by
      intro h; apply hlf
      simp only [RequestID.bytes, List.mem_cons, List.mem_nil_iff, or_false] at h
      simp only [List.mem_cons]; tauto
    have hcmd : 10 ∉ x0 :: x1 :: x2 :: x3 :: m := by
      intro h; apply hlf
      simp only [List.mem_cons] at h ⊢; tauto
    have hin : (a :: b :: c :: d :: x0 :: x1 :: x2 :: x3 :: m) ++ 10 :: rest
        = (RequestID.mk a b c d).bytes ++ (x0 :: x1 :: x2 :: x3 :: m) ++ 10 :: rest := by
      simp [RequestID.bytes]
    have hx3 : x3 ≠ 32 := by
      intro h; apply hsp; simp [h]
    refine ⟨Err.FailedToParse (x0 :: x1 :: x2 :: x3 :: m) Err.ErrRequestMissingSetSpace, ?_, ?_⟩
    · rw [hin, ReadRequest_line _ _ rest hid hcmd (by simp)]
      rcases htok with h | h
      · have h0 : x0 = 71 ∧ x1 = 69 ∧ x2 = 84 := by
          simpa [PrefixGet, List.prefix_cons_inj, eq_comm] using h
        obtain ⟨rfl, rfl, rfl⟩ := h0
        have h1 : HasPrefix (71 :: 69 :: 84 :: x3 :: m) PrefixQuit = false := rfl
        have h2 : HasPrefix (71 :: 69 :: 84 :: x3 :: m) PrefixPing = false := rfl
        have h3 : HasPrefix (71 :: 69 :: 84 :: x3 :: m) PrefixGet = true := by
          simp [HasPrefix, PrefixGet]
        simp only [h1, h2, h3, index_three, Bool.false_eq_true, if_false, if_true, ne_eq, hx3,
          not_false_eq_true]
      · have h0 : x0 = 83 ∧ x1 = 69 ∧ x2 = 84 := by
          simpa [PrefixSet, List.prefix_cons_inj, eq_comm] using h
        obtain ⟨rfl, rfl, rfl⟩ := h0
        have h1 : HasPrefix (83 :: 69 :: 84 :: x3 :: m) PrefixQuit = false := rfl
        have h2 : HasPrefix (83 :: 69 :: 84 :: x3 :: m) PrefixPing = false := rfl
        have h3 : HasPrefix (83 :: 69 :: 84 :: x3 :: m) PrefixGet = false := rfl
        have h4 : HasPrefix (83 :: 69 :: 84 :: x3 :: m) PrefixSet = true := by
          simp [HasPrefix, PrefixSet]
        simp only [h1, h2, h3, h4, index_three, Bool.false_eq_true, if_false, if_true, ne_eq, hx3,
          not_false_eq_true]
    · simp [errorsIs]

/-- Witness of C11 at `1234SETkey\nvalue\n`. -/
theorem ReadRequest_missing_space_witness :
    ∃ e, ReadRequest ([49, 50, 51, 52, 83, 69, 84, 107, 101, 121]
          ++ 10 :: [118, 97, 108, 117, 101, 10])
        = (Res.err e, [118, 97, 108, 117, 101, 10]) ∧
      errorsIs e Err.ErrRequestMissingSetSpace = true :=
  ReadRequest_missing_space [49, 50, 51, 52, 83, 69, 84, 107, 101, 121]
    [118, 97, 108, 117, 101, 10] (by decide) (by decide) (Or.inr (by decide)) (by decide)

/-- C12: whenever the input ends before the line feed of a line `ReadRequest`
needs, `ReadRequest` returns no request and fails with `io.EOF`: when the
input contains no line feed at all, and when it is a well-formed `SET` first
line (an id free of line feeds, `SET `, a non-empty key free of line feeds and
a terminator `\n` or `\r\n`) followed by value bytes without line feed. -/
theorem ReadRequest_eof (input : List Byte)
    (h : 10 ∉ input ∨
      ∃ (id : RequestID) (key t value : List Byte),
        10 ∉ id.bytes ∧ key ≠ [] ∧ 10 ∉ key ∧ (t = [10] ∨ t = [13, 10]) ∧ 10 ∉ value ∧
        input = id.bytes ++ [83, 69, 84, 32] ++ key ++ t ++ value) :
    ReadRequest input = (Res.err Err.EOF, []) := by
  rcases h with h | ⟨id, key, t, value, hid, hkne, hklf, ht, hvlf, rfl⟩
  · unfold ReadRequest
    simp only [ReadBytes_eof input h]
  · obtain ⟨c, hc, hclf, rfl⟩ := terminator_cases t ht
    have hne : key ++ c ≠ [] := by simp [hkne]
    obtain ⟨k, hk⟩ : ∃ k, RemoveTrailingCR (key ++ c) = some k := by
      obtain ⟨l, x, hlx⟩ : ∃ l x, key ++ c = l ++ [x] := by
        rcases List.eq_nil_or_concat (key ++ c) with h | ⟨l, x, h⟩
        · exact absurd h hne
        · exact ⟨l, x, by simpa using h⟩
      rw [hlx]
      by_cases hx : x = 13
      · subst hx; exact ⟨l, RemoveTrailingCR_cr l⟩
      · refine ⟨l ++ [x], RemoveTrailingCR_keep _ (by simp) ?_⟩
        simpa using hx
    have hcmd : 10 ∉ 83 :: 69 :: 84 :: 32 :: (key ++ c) := by
      simp [hklf, hclf]
    have hin : id.bytes ++ [83, 69, 84, 32] ++ key ++ (c ++ [10]) ++ value
        = id.bytes ++ (83 :: 69 :: 84 :: 32 :: (key ++ c)) ++ 10 :: value := by simp
    rw [hin, ReadRequest_line id _ _ hid hcmd (by simp)]
    have h1 : HasPrefix (83 :: 69 :: 84 :: 32 :: (key ++ c)) PrefixQuit = false := rfl
    have h2 : HasPrefix (83 :: 69 :: 84 :: 32 :: (key ++ c)) PrefixPing = false := rfl
    have h3 : HasPrefix (83 :: 69 :: 84 :: 32 :: (key ++ c)) PrefixGet = false := rfl
    have h4 : HasPrefix (83 :: 69 :: 84 :: 32 :: (key ++ c)) PrefixSet = true := rfl
    simp only [h1, h2, h3, h4, index_three, slice_drop4, hk, Option.bind, Bool.false_eq_true,
      if_false, if_true, ne_eq, not_true_eq_false, ReadBytes_eof value hvlf]

/-- Witness of C12 at `I have no new line` and at `1234SET key\nvalue`. -/
theorem ReadRequest_eof_witness :
    ReadRequest [73, 32, 104, 97, 118, 101, 32, 110, 111, 32, 110, 101, 119, 32, 108, 105, 110, 101]
        = (Res.err Err.EOF, []) ∧
    ReadRequest ((RequestID.mk 49 50 51 52).bytes ++ [83, 69, 84, 32] ++ [107, 101, 121] ++ [10]
          ++ [118, 97, 108, 117, 101])
        = (Res.err Err.EOF, []) :=
  ⟨ReadRequest_eof _ (Or.inl (by decide)),
   ReadRequest_eof _ (Or.inr ⟨⟨49, 50, 51, 52⟩, [107, 101, 121], [10], [118, 97, 108, 117, 101],
     by decide, by decide, by decide, Or.inl rfl, by decide, rfl⟩)⟩

/-! ## The frames of the writers -/

/-- Joining lines with a separator and appending the separator is terminating
every line with it. -/
theorem Join_terminated (x : List Byte) (xs : List (List Byte)) (sep : List Byte) :
    Join (x :: xs) sep ++ sep = ((x :: xs).map (fun l => l ++ sep)).flatten := by
  induction xs generalizing x with
  | nil => simp [Join, List.intercalate]
  | cons y ys ih =>
    have := ih y
    simp only [Join, List.intercalate, List.intersperse, List.flatten, List.map,
      List.append_assoc] at this ⊢
    rw [this]

/-- C13: for every request id and every non-empty list of lines, `WriteLines`
performs exactly one write to the sink, whose bytes are the id followed by
every line in order, each terminated by `\r\n`; a recording sink holds this
one frame afterwards and the error is nil. -/
theorem WriteLines_frame {σ : Type} (W : Writer σ) (w : σ) (id : RequestID)
    (ss : List (List Byte)) (h : ss ≠ []) :
    WriteLines W w id ss = W.Write w (id.bytes ++ (ss.map (fun l => l ++ [13, 10])).flatten) ∧
    WriteLines recorder [] id ss
      = ([id.bytes ++ (ss.map (fun l => l ++ [13, 10])).flatten], none) := by
  match ss, h with
  | s0 :: rest, _ =>
    have hj := Join_terminated (PrependRequestID s0 id) rest Terminal
    have hb : Join ([PrependRequestID s0 id] ++ rest) Terminal ++ [13, 10]
        = id.bytes ++ ((s0 :: rest).map (fun l => l ++ [13, 10])).flatten := by
      have : Join ([PrependRequestID s0 id] ++ rest) Terminal ++ [13, 10]
          = Join (PrependRequestID s0 id :: rest) Terminal ++ Terminal := rfl
      rw [this, hj]
      simp [PrependRequestID, Terminal]
    constructor
    · show W.Write w _ = _
      rw [hb]
    · show recorder.Write [] _ = _
      rw [hb]; rfl

/-- Witness of C13 at the id `1234` and the lines `key`, `value`: the frame is
`1234key\r\nvalue\r\n`. -/
theorem WriteLines_frame_witness :
    WriteLines recorder [] ⟨49, 50, 51, 52⟩ [[107, 101, 121], [118, 97, 108, 117, 101]]
      = ([[49, 50, 51, 52, 107, 101, 121, 13, 10, 118, 97, 108, 117, 101, 13, 10]], none) :=
  (WriteLines_frame recorder [] ⟨49, 50, 51, 52⟩ [[107, 101, 121], [118, 97, 108, 117, 101]]
    (by decide)).2

/-- C14: for every request id, string `s` and message `m`, each single-line
writer performs exactly one write to the sink, of the four id bytes, a body
and `\r\n`: `WriteOk` writes the id and `OK\r\n`, `WriteString` the id, `s` and
`\r\n`, `WriteError` the id, `ERR `, `m` and `\r\n`; a recording sink holds this
one frame afterwards and the error is nil. -/
theorem single_line_writers {σ : Type} (W : Writer σ) (w : σ) (id : RequestID)
    (s m : List Byte) :
    (WriteOk W w id = W.Write w (id.bytes ++ [79, 75, 13, 10]) ∧
     WriteString W w id s = W.Write w (id.bytes ++ s ++ [13, 10]) ∧
     WriteError W w id m = W.Write w (id.bytes ++ [69, 82, 82, 32] ++ m ++ [13, 10])) ∧
    (WriteOk recorder [] id = ([id.bytes ++ [79, 75, 13, 10]], none) ∧
     WriteString recorder [] id s = ([id.bytes ++ s ++ [13, 10]], none) ∧
     WriteError recorder [] id m = ([id.bytes ++ [69, 82, 82, 32] ++ m ++ [13, 10]], none)) := by
  refine ⟨⟨rfl, ?_, ?_⟩, rfl, ?_, ?_⟩
  · simp [WriteString, PrependRequestID]
  · simp [WriteError, PrependRequestID]
  · simp [WriteString, PrependRequestID, recorder]
  · simp [WriteError, PrependRequestID, recorder]

/-- C15: for every update, `TCPConn.WriteUpdate` on a running connection sends
exactly one element on the outbound queue, behind those sent before: `*`, the
key, `\n`, the value and `\n`; and it returns a nil error. -/
theorem WriteUpdate_frame (t : TCPConn) (update : Update) (hrun : t.isRunning = true) :
    t.WriteUpdate update
      = ({ t with writeQueue := t.writeQueue ++ [[42] ++ update.Key ++ [10] ++ update.Value ++ [10]] },
         none) := by
  simp [TCPConn.WriteUpdate, TCPConn.Write, hrun, PrefixUpdate]

/-- Witness of C15 at the update of `foo` to `"bar"` on a running connection
with an empty queue. -/
theorem WriteUpdate_frame_witness :
    TCPConn.WriteUpdate ⟨false, []⟩ ⟨[102, 111, 111], [34, 98, 97, 114, 34]⟩
      = ({ (⟨false, []⟩ : TCPConn) with
            writeQueue := [] ++ [[42] ++ [102, 111, 111] ++ [10] ++ [34, 98, 97, 114, 34] ++ [10]] },
         none) :=
  WriteUpdate_frame ⟨false, []⟩ ⟨[102, 111, 111], [34, 98, 97, 114, 34]⟩ rfl

/-- C16, evaluated on the code: on the empty slice `RemoveTrailingCR` panics
(the index `len(data)-1` is out of range), where the claim has it return the
slice unchanged; on every non-empty slice it does what the claim says, removing
a final carriage return and returning any other slice unchanged. The panic is
reached from `ReadRequest` on the request `1234GET \n`, whose key is empty. -/
theorem RemoveTrailingCR_empty_panics :
    RemoveTrailingCR [] = none ∧
    (∀ d : List Byte, RemoveTrailingCR (d ++ [13]) = some d) ∧
    (∀ (d : List Byte) (x : Byte), x ≠ 13 → RemoveTrailingCR (d ++ [x]) = some (d ++ [x])) ∧
    (ReadRequest [49, 50, 51, 52, 71, 69, 84, 32, 10]).1 = Res.panic := by
  refine ⟨rfl, RemoveTrailingCR_cr, ?_, rfl⟩
  intro d x hx
  exact RemoveTrailingCR_keep _ (by simp) (by simpa using hx)

/-! ## The in-memory store -/

/-- A completed `closeEach` leaves every channel closed. -/
theorem closeEach_closed (cs : List Chan) (h : (closeEach cs).2 = true) :
    ∀ c ∈ (closeEach cs).1, c.closed = true := by
  induction cs with
  | nil => simp [closeEach]
  | cons c cs ih =>
    by_cases hc : c.closed = true
    · simp [closeEach, Chan.close, hc] at h
    · simp only [closeEach, Chan.close, hc, Bool.false_eq_true, if_false] at h ⊢
      intro x hx
      simp only [List.mem_cons] at hx
      rcases hx with rfl | hx
      · rfl
      · exact ih h x hx

/-- On a non-empty list of closed channels `closeEach` panics. -/
theorem closeEach_panics (cs : List Chan) (hne : cs ≠ []) (h : ∀ c ∈ cs, c.closed = true) :
    (closeEach cs).2 = false := by
  match cs, hne with
  | c :: cs, _ =>
    have hc : c.closed = true := h c (by simp)
    simp [closeEach, Chan.close, hc]

/-- `closeEach` keeps the number of channels. -/
theorem closeEach_length (cs : List Chan) : (closeEach cs).1.length = cs.length := by
  induction cs with
  | nil => simp [closeEach]
  | cons c cs ih =>
    by_cases hc : c.closed = true
    · simp [closeEach, Chan.close, hc]
    · simp [closeEach, Chan.close, hc, ih]

/-- On a store with a subscriber, one of two calls of `Close` in succession
panics. -/
theorem Close_after_Close_panics (i : InmemoryStore) :
    (i.ListenToUpdates.1.Close).2 = Res.panic ∨
    (i.ListenToUpdates.1.Close.1.Close).2 = Res.panic := by
  by_cases h1 : (closeEach (i.updateChans ++ [Chan.make])).2 = true
  · right
    have hcl := closeEach_closed _ h1
    have hne : (closeEach (i.updateChans ++ [Chan.make])).1 ≠ [] := by
      intro h
      have := closeEach_length (i.updateChans ++ [Chan.make])
      rw [h] at this
      simp at this
    have h2 := closeEach_panics _ hne hcl
    by_cases hr : i.isRunning = true <;>
      simp [InmemoryStore.Close, InmemoryStore.ListenToUpdates, InmemoryStore.isRunning, hr, h2] <;>
      simp_all [InmemoryStore.isRunning]
  · left
    have h1 : (closeEach (i.updateChans ++ [Chan.make])).2 = false := by simpa using h1
    by_cases hr : i.isRunning = true <;>
      simp [InmemoryStore.Close, InmemoryStore.ListenToUpdates, InmemoryStore.isRunning, hr, h1] <;>
      simp_all [InmemoryStore.isRunning]

/-- On a store without subscribers two calls of `Close` in succession both
return a nil error. -/
theorem Close_twice_without_subscribers (i : InmemoryStore) (h : i.updateChans = []) :
    i.Close.2 = Res.ok () ∧ i.Close.1.Close.2 = Res.ok () := by
  obtain ⟨vals, chans, st⟩ := i
  simp only at h
  subst h
  cases st <;> exact ⟨rfl, rfl⟩

/-- C17, evaluated on the code: on a new store with one subscriber registered
by `ListenToUpdates`, the first `Close` returns a nil error and the second
`Close` panics, closing the subscriber's channel a second time; and on every
store with a subscriber just registered, one of two calls of `Close` in
succession panics. -/
theorem Close_twice_panics :
    (NewInmemoryStore.ListenToUpdates.1.Close).2 = Res.ok () ∧
    (NewInmemoryStore.ListenToUpdates.1.Close.1.Close).2 = Res.panic ∧
    (∀ i : InmemoryStore,
      (i.ListenToUpdates.1.Close).2 = Res.panic ∨
      (i.ListenToUpdates.1.Close.1.Close).2 = Res.panic) :=
  ⟨rfl, rfl, Close_after_Close_panics⟩

/-- Under the index contract `Get` returns the raw value the library finds. -/
theorem Get_eq_Raw {Val : Type} (L : JSONLib Val) (hidx : L.IndexSound) (i : InmemoryStore)
    (key : List Byte) : i.Get L key = Res.ok (L.GetBytes i.values key).Raw := by
  unfold InmemoryStore.Get
  by_cases h0 : (L.GetBytes i.values key).Index = 0
  · simp only [h0, if_true]
  · simp only [h0, if_false, hidx i.values key h0]

/-- The document after `Set` is the first result of `SetBytes`. -/
theorem Set_values {Val : Type} (L : JSONLib Val) (i : InmemoryStore) (key : List Byte)
    (value : Val) : (i.Set L key value).1.values = (L.SetBytes i.values key value).1 := by
  simp only [InmemoryStore.Set]
  split
  · rfl
  · split <;> rfl

/-- A `Set` that returns a nil error had a nil error from `SetBytes`. -/
theorem Set_ok_library {Val : Type} (L : JSONLib Val) (i : InmemoryStore) (key : List Byte)
    (value : Val) (h : (i.Set L key value).2 = Res.ok ()) :
    (L.SetBytes i.values key value).2 = none := by
  simp only [InmemoryStore.Set] at h
  cases he : (L.SetBytes i.values key value).2 with
  | some e => rw [he] at h; simp at h
  | none => rfl

/-- Sending on open channels completes and appends the update to each. -/
theorem sendEach_open (u : Update) (cs : List Chan) (h : ∀ c ∈ cs, c.closed = false) :
    sendEach u cs = (cs.map (fun c => { c with sent := c.sent ++ [u] }), true) := by
  induction cs with
  | nil => simp [sendEach]
  | cons c cs ih =>
    have hc : c.closed = false := h c (by simp)
    have ih := ih (fun x hx => h x (by simp [hx]))
    simp [sendEach, Chan.send, hc, ih]

/-- A `Set` on a running store with open channels, accepted by the library. -/
theorem Set_running {Val : Type} (L : JSONLib Val) (i : InmemoryStore) (k : List Byte) (v : Val)
    (hrun : i.isRunning = true) (hopen : ∀ c ∈ i.updateChans, c.closed = false)
    (hlib : (L.SetBytes i.values k v).2 = none) :
    i.Set L k v =
      ({ values := (L.SetBytes i.values k v).1,
         updateChans := i.updateChans.map (fun c =>
           { c with sent := c.sent ++
              [{ Key := k, Value := (L.GetBytes (L.SetBytes i.values k v).1 k).Raw }] }),
         stopped := i.stopped }, Res.ok ()) := by
  have hrun2 : i.stopped = false := by simpa [InmemoryStore.isRunning] using hrun
  unfold InmemoryStore.Set
  simp only [hlib, InmemoryStore.isRunning, hrun2, Bool.not_false, if_true,
    sendEach_open _ _ hopen]

/-- The example library keeps the index contract. -/
theorem entryLib_IndexSound : entryLib.IndexSound := by
  intro json path h
  by_cases h35 : 35 ∈ path
  · exfalso
    apply h
    simp [entryLib, h35]
  by_cases hp : path ++ [58] <+: json
  · obtain ⟨rest, rfl⟩ := hp
    have hg : entryLib.GetBytes (path ++ [58] ++ rest) path
        = { Raw := rest, Index := ((path.length + 1 : Nat) : Int) } := by
      simp [entryLib, h35]
    rw [hg]
    have := slice_middle (path ++ [58]) rest [] ((path.length + 1 : Nat) : Int)
      (((path.length + 1 : Nat) : Int) + (rest.length : Int)) (by simp) (by simp)
    simpa using this
  · exfalso
    apply h
    simp [entryLib, h35, hp]

/-- C18, evaluated on the code: `Set` returns a nil error whenever
`sjson.SetBytes` does, also when the library has stored nothing under the key.
For every library, store with open subscriber channels, key `k` and value `v`
such that `SetBytes` returns the document unchanged with a nil error and
`GetBytes` finds nothing under `k`, `Set(k, v)` returns a nil error, leaves the
document as it was, and the `Get(k)` that follows returns a nil error and no
bytes, not the encoded bytes of `v`. With the example library this happens on
a new store for the key `a.#.b` and the value `"x"`: `Set` returns nil, `Get`
returns no bytes and `Backup` still returns `{}`; for the key `foo` and the
value `"bar"` the `Get` after the `Set` returns `"bar"`. -/
theorem Get_after_Set_loses_value :
    (∀ (Val : Type) (L : JSONLib Val) (i : InmemoryStore) (k : List Byte) (v : Val),
        L.SetBytes i.values k v = (i.values, none) →
        L.GetBytes i.values k = { Raw := [], Index := 0 } →
        (∀ c ∈ i.updateChans, c.closed = false) →
          (i.Set L k v).2 = Res.ok () ∧ (i.Set L k v).1.values = i.values ∧
          (i.Set L k v).1.Get L k = Res.ok []) ∧
    (NewInmemoryStore.Set entryLib [97, 46, 35, 46, 98] [34, 120, 34]).2 = Res.ok () ∧
    (NewInmemoryStore.Set entryLib [97, 46, 35, 46, 98] [34, 120, 34]).1.Get entryLib
        [97, 46, 35, 46, 98] = Res.ok [] ∧
    (NewInmemoryStore.Set entryLib [97, 46, 35, 46, 98] [34, 120, 34]).1.Backup
        = Res.ok [123, 125] ∧
    (NewInmemoryStore.Set entryLib [102, 111, 111] [34, 98, 97, 114, 34]).1.Get entryLib
        [102, 111, 111] = Res.ok [34, 98, 97, 114, 34] := by
  refine ⟨?_, rfl, rfl, rfl, rfl⟩
  intro Val L i k v hset hget hopen
  have hlib : (L.SetBytes i.values k v).2 = none := by rw [hset]
  have hval : (i.Set L k v).1.values = i.values := by rw [Set_values, hset]
  refine ⟨?_, hval, ?_⟩
  · simp only [InmemoryStore.Set, hlib, sendEach_open _ _ hopen]
    split <;> rfl
  · simp only [InmemoryStore.Get, hval, hget, if_true]

/-- C19: on a store that has not been closed (it is running and none of its
subscriber channels is closed), with a JSON library that keeps the index
contract, every `Set(k, v)` that returns a nil error sends exactly one update
on the channel of each registered subscriber, behind the updates sent before;
the update has the key `k` and the bytes `Get(k)` returns right after the
`Set`. Hence a sequence of `n` calls of `Set` that all return a nil error
leaves their `n` updates on every channel, in call order. -/
theorem Set_publishes {Val : Type} (L : JSONLib Val) (hidx : L.IndexSound) (i : InmemoryStore)
    (hrun : i.isRunning = true) (hopen : ∀ c ∈ i.updateChans, c.closed = false) :
    (∀ (k : List Byte) (v : Val), (i.Set L k v).2 = Res.ok () →
      ∃ val, (i.Set L k v).1.Get L k = Res.ok val ∧
        (i.Set L k v).1.updateChans
          = i.updateChans.map (fun c => { c with sent := c.sent ++ [{ Key := k, Value := val }] })) ∧
    (∀ kvs : List (List Byte × Val), (i.SetAll L kvs).2 = true →
      (i.SetAll L kvs).1.updateChans
          = i.updateChans.map (fun c => { c with sent := c.sent ++ i.updatesOf L kvs }) ∧
      (i.updatesOf L kvs).map Update.Key = kvs.map Prod.fst) := by
  constructor
  · intro k v hset
    have hlib := Set_ok_library L i k v hset
    refine ⟨(L.GetBytes (L.SetBytes i.values k v).1 k).Raw, ?_, ?_⟩
    · rw [Get_eq_Raw L hidx, Set_values]
    · rw [Set_running L i k v hrun hopen hlib]
  · intro kvs
    induction kvs generalizing i with
    | nil =>
      intro _
      simp [InmemoryStore.SetAll, InmemoryStore.updatesOf]
    | cons kv rest ih =>
      intro hall
      have hset : (i.Set L kv.1 kv.2).2 = Res.ok () := by
        unfold InmemoryStore.SetAll at hall
        rcases hs : i.Set L kv.1 kv.2 with ⟨j, r⟩
        rw [hs] at hall
        cases r with
        | ok u => rfl
        | err e => simp at hall
        | panic => simp at hall
      have hlib := Set_ok_library L i kv.1 kv.2 hset
      have hstep := Set_running L i kv.1 kv.2 hrun hopen hlib
      have hget := Get_eq_Raw L hidx (i.Set L kv.1 kv.2).1 kv.1
      rw [Set_values] at hget
      have hrun1 : (i.Set L kv.1 kv.2).1.isRunning = true := by
        rw [hstep]; simpa [InmemoryStore.isRunning] using hrun
      have hopen1 : ∀ c ∈ (i.Set L kv.1 kv.2).1.updateChans, c.closed = false := by
        rw [hstep]
        intro c hc
        simp only [List.mem_map] at hc
        obtain ⟨c0, hc0, rfl⟩ := hc
        exact hopen c0 hc0
      have hall1 : ((i.Set L kv.1 kv.2).1.SetAll L rest).2 = true := by
        unfold InmemoryStore.SetAll at hall
        rw [hstep] at hall ⊢
        exact hall
      obtain ⟨ih1, ih2⟩ := ih (i.Set L kv.1 kv.2).1 hrun1 hopen1 hall1
      constructor
      · have e1 : (i.SetAll L (kv :: rest)).1 = ((i.Set L kv.1 kv.2).1.SetAll L rest).1 := by
          conv_lhs => unfold InmemoryStore.SetAll
          rw [hstep]
        rw [e1, ih1]
        have e2 : i.updatesOf L (kv :: rest)
            = { Key := kv.1, Value := (L.GetBytes (L.SetBytes i.values kv.1 kv.2).1 kv.1).Raw }
                :: (i.Set L kv.1 kv.2).1.updatesOf L rest := by
          conv_lhs => unfold InmemoryStore.updatesOf
          simp only [hget]
        rw [e2, hstep]
        simp [List.map_map, Function.comp]
      · conv_lhs => unfold InmemoryStore.updatesOf
        simp only [List.map_cons, ih2]

/-- Witness of C19 with the example library on a new store with one
subscriber: `Set(foo, bar)` sends one update, and the two calls `Set(foo, bar)`,
`Set(k, v)` leave their two updates in this order. -/
theorem Set_publishes_witness :
    (∃ val, ((NewInmemoryStore.ListenToUpdates.1).Set entryLib [102, 111, 111]
          [98, 97, 114]).1.Get entryLib [102, 111, 111] = Res.ok val ∧
        ((NewInmemoryStore.ListenToUpdates.1).Set entryLib [102, 111, 111]
          [98, 97, 114]).1.updateChans
          = (NewInmemoryStore.ListenToUpdates.1).updateChans.map
              (fun c => { c with sent := c.sent ++ [{ Key := [102, 111, 111], Value := val }] })) ∧
    ((NewInmemoryStore.ListenToUpdates.1).SetAll entryLib
        [([102, 111, 111], [98, 97, 114]), ([107], [118])]).1.updateChans
      = [{ sent := [{ Key := [102, 111, 111], Value := [98, 97, 114] },
                    { Key := [107], Value := [118] }],
           closed := false }] :=
  ⟨(Set_publishes entryLib entryLib_IndexSound (NewInmemoryStore.ListenToUpdates.1) rfl
      (by decide)).1 [102, 111, 111] [98, 97, 114] rfl,
   ((Set_publishes entryLib entryLib_IndexSound (NewInmemoryStore.ListenToUpdates.1) rfl
      (by decide)).2 [([102, 111, 111], [98, 97, 114]), ([107], [118])] rfl).1.trans rfl⟩

/-- C20: after `Close`, a later `Set` publishes nothing: for every store, key
and value, the `Set` that follows `Close` leaves every subscriber channel as
it is, still applies the write (the document becomes the one `SetBytes`
returns) and returns the error of `SetBytes`, a nil error when that is nil. -/
theorem Set_after_Close {Val : Type} (L : JSONLib Val) (i : InmemoryStore) (k : List Byte)
    (v : Val) :
    (i.Close.1.Set L k v).1.updateChans = i.Close.1.updateChans ∧
    (i.Close.1.Set L k v).1.values = (L.SetBytes i.Close.1.values k v).1 ∧
    ((L.SetBytes i.Close.1.values k v).2 = none → (i.Close.1.Set L k v).2 = Res.ok ()) ∧
    (∀ e, (L.SetBytes i.Close.1.values k v).2 = some e → (i.Close.1.Set L k v).2 = Res.err e) := by
  have hst : i.Close.1.stopped = true := by
    unfold InmemoryStore.Close
    by_cases hr : i.isRunning = true
    · simp [hr]
    · simp only [hr]
      simpa [InmemoryStore.isRunning] using hr
  refine ⟨?_, Set_values L _ k v, ?_, ?_⟩
  · simp only [InmemoryStore.Set, InmemoryStore.isRunning, hst]
    split <;> rfl
  · intro h
    simp only [InmemoryStore.Set, InmemoryStore.isRunning, hst, h]
    rfl
  · intro e h
    simp only [InmemoryStore.Set, h]

/-! ## Backup and restore -/

/-- C21: the round trip of backup and restore is lossless: for every store
state `s` and every store `t`, `s.Backup()` succeeds with some bytes `b`, which
are the document of `s`, or `{}` when that document is empty; `t.Restore(b)`
succeeds and changes nothing of `t` but its document, which becomes `b`; and
`Backup` on the restored store succeeds with exactly the bytes `b`. When the
document of `s` is not empty the restored store holds that document, so that
`Get` of every key returns on it what it returns on `s`. -/
theorem Backup_Restore_Backup (s t : InmemoryStore) :
    ∃ b, s.Backup = Res.ok b ∧
      b = (if s.values = [] then [123, 125] else s.values) ∧
      (t.Restore b).2 = Res.ok () ∧
      (t.Restore b).1 = { t with values := b } ∧
      (t.Restore b).1.Backup = Res.ok b ∧
      (s.values ≠ [] →
        (t.Restore b).1.values = s.values ∧
        ∀ (Val : Type) (L : JSONLib Val) (key : List Byte),
          (t.Restore b).1.Get L key = s.Get L key) := by
  by_cases h : s.values = []
  · refine ⟨[123, 125], ?_, ?_, rfl, rfl, rfl, fun hne => absurd h hne⟩
    · simp [InmemoryStore.Backup, h]
    · simp [h]
  · have hlen : ¬ s.values.length = 0 := by simpa using h
    refine ⟨s.values, ?_, ?_, rfl, rfl, ?_, fun _ => ⟨rfl, fun Val L key => rfl⟩⟩
    · simp [InmemoryStore.Backup, hlen]
    · simp [h]
    · simp only [InmemoryStore.Backup, InmemoryStore.Restore, hlen, if_false]

/-- C22: `Backup` on a newly created store returns exactly the two bytes `{}`
and a nil error. -/
theorem Backup_new : NewInmemoryStore.Backup = Res.ok [123, 125] := rfl

/-! ## The pumps of a connection -/

/-- On a running connection `ReadLoop` runs the body on its first input. -/
theorem ReadLoop_cons (L : JSONLib (List Byte)) (c : ConnState) (data : Reader)
    (rest : List Reader) (hrun : c.t.isRunning = true) :
    TCPConn.ReadLoop L c (data :: rest) =
      match TCPConn.ReadLoopBody L c data with
      | (c1, Ctl.next) => TCPConn.ReadLoop L c1 rest
      | (c1, Ctl.exit) => ({ c1 with readClosed := true }, LoopEnd.returned)
      | (c1, Ctl.panic) => ({ c1 with readClosed := true }, LoopEnd.panicked) := by
  rw [TCPConn.ReadLoop]
  simp [hrun]

/-- A write on a running connection appends the frame to the queue. -/
theorem Write_running (t : TCPConn) (data : List Byte) (hrun : t.isRunning = true) :
    t.Write data = ({ t with writeQueue := t.writeQueue ++ [data] }, none) := by
  simp [TCPConn.Write, hrun]

/-- A `QUIT` request decoded on a running connection: the reader pump sends
the `OK` frame, returns and closes the read half; the token is as it was. -/
theorem ReadLoop_quit_returns (L : JSONLib (List Byte)) (c : ConnState) (data : Reader)
    (rest : List Reader) (R : RequestID) (hrun : c.t.isRunning = true)
    (hreq : (ReadRequest data).1 = Res.ok (Request.QuitRequest R)) :
    TCPConn.ReadLoop L c (data :: rest)
      = ({ c with t := { c.t with writeQueue := c.t.writeQueue ++ [R.bytes ++ [79, 75, 13, 10]] },
                  readClosed := true }, LoopEnd.returned) := by
  rw [ReadLoop_cons L c data rest hrun]
  simp only [TCPConn.ReadLoopBody, hreq, WriteOk, TCPConn.writer, Write_running _ _ hrun]
  rfl

/-- C23, evaluated on the code: on a running connection with an empty queue
the reader pump given `1234QUIT\n` sends exactly the frame `1234OK\r\n`,
returns and closes the read half of the socket, but the connection's token is
not cancelled and the write half is not closed; the writer pump then writes
the frame, whichever case its `select` would pick on a fired token, and stays
blocked in its `select` instead of returning. For every
running connection and every decoded `QUIT` request the token is likewise left
as it was. -/
theorem ReadLoop_quit_keeps_token :
    TCPConn.ReadLoop entryLib ⟨⟨false, []⟩, NewInmemoryStore, false, false, []⟩
        [[49, 50, 51, 52, 81, 85, 73, 84, 10]]
      = (⟨⟨false, [[49, 50, 51, 52, 79, 75, 13, 10]]⟩, NewInmemoryStore, true, false, []⟩,
         LoopEnd.returned) ∧
    (∀ pick : Bool,
      TCPConn.WriteLoop
          ⟨⟨false, [[49, 50, 51, 52, 79, 75, 13, 10]]⟩, NewInmemoryStore, true, false, []⟩
          [(pick, some [49, 50, 51, 52, 79, 75, 13, 10])]
        = (⟨⟨false, [[49, 50, 51, 52, 79, 75, 13, 10]]⟩, NewInmemoryStore, true, false,
            [[49, 50, 51, 52, 79, 75, 13, 10]]⟩, LoopEnd.waiting)) ∧
    (∀ (L : JSONLib (List Byte)) (c : ConnState) (data : Reader) (rest : List Reader)
        (R : RequestID), c.t.isRunning = true →
        (ReadRequest data).1 = Res.ok (Request.QuitRequest R) →
        (TCPConn.ReadLoop L c (data :: rest)).2 = LoopEnd.returned ∧
        (TCPConn.ReadLoop L c (data :: rest)).1.t.writeQueue
          = c.t.writeQueue ++ [R.bytes ++ [79, 75, 13, 10]] ∧
        (TCPConn.ReadLoop L c (data :: rest)).1.t.cancelled = false ∧
        (TCPConn.ReadLoop L c (data :: rest)).1.writeClosed = c.writeClosed) := by
  refine ⟨rfl, fun pick => by cases pick <;> rfl, ?_⟩
  intro L c data rest R hrun hreq
  rw [ReadLoop_quit_returns L c data rest R hrun hreq]
  refine ⟨rfl, rfl, ?_, rfl⟩
  simpa [TCPConn.isRunning] using hrun

/-- C24: when the reader pump decodes a `GET` request with id `R` and key `k`
on a running connection and `store.Get(k)` returns the bytes `v` without
error, it sends exactly one frame on the queue, `R`, `GET\r\n`, `v` and
`\r\n`, leaves the store and the token as they are, and goes on with the next
read. -/
theorem ReadLoop_get (L : JSONLib (List Byte)) (c : ConnState) (data : Reader)
    (R : RequestID) (k v : List Byte) (hrun : c.t.isRunning = true)
    (hreq : (ReadRequest data).1 = Res.ok (Request.GetRequest R k))
    (hget : c.store.Get L k = Res.ok v) :
    TCPConn.ReadLoopBody L c data
      = ({ c with t := { c.t with
            writeQueue := c.t.writeQueue ++ [R.bytes ++ [71, 69, 84, 13, 10] ++ v ++ [13, 10]] } },
         Ctl.next) ∧
    ∀ rest : List Reader,
      TCPConn.ReadLoop L c (data :: rest)
        = TCPConn.ReadLoop L { c with t := { c.t with
            writeQueue := c.t.writeQueue ++ [R.bytes ++ [71, 69, 84, 13, 10] ++ v ++ [13, 10]] } }
            rest := by
  have hbody : TCPConn.ReadLoopBody L c data
      = ({ c with t := { c.t with
            writeQueue := c.t.writeQueue ++ [R.bytes ++ [71, 69, 84, 13, 10] ++ v ++ [13, 10]] } },
         Ctl.next) := by
    simp only [TCPConn.ReadLoopBody, hreq, hget, WriteLines, TCPConn.writer]
    have hb : Join ([PrependRequestID PrefixGet R] ++ [v]) Terminal ++ [13, 10]
        = R.bytes ++ [71, 69, 84, 13, 10] ++ v ++ [13, 10] := by
      simp [Join, List.intercalate, PrependRequestID, PrefixGet, Terminal]
    rw [hb, Write_running _ _ hrun]
  refine ⟨hbody, fun rest => ?_⟩
  rw [ReadLoop_cons L c data rest hrun, hbody]

/-- Witness of C24 with the example library: on a store restored from the
document `foo:bar`, `1234GET foo\n` is answered by `1234GET\r\nbar\r\n`. -/
theorem ReadLoop_get_witness :
    TCPConn.ReadLoopBody entryLib
        ⟨⟨false, []⟩, (NewInmemoryStore.Restore [102, 111, 111, 58, 98, 97, 114]).1, false, false, []⟩
        [49, 50, 51, 52, 71, 69, 84, 32, 102, 111, 111, 10]
      = (⟨⟨false, [] ++ [(RequestID.mk 49 50 51 52).bytes ++ [71, 69, 84, 13, 10] ++ [98, 97, 114]
            ++ [13, 10]]⟩,
          (NewInmemoryStore.Restore [102, 111, 111, 58, 98, 97, 114]).1, false, false, []⟩,
         Ctl.next) :=
  (ReadLoop_get entryLib
    ⟨⟨false, []⟩, (NewInmemoryStore.Restore [102, 111, 111, 58, 98, 97, 114]).1, false, false, []⟩
    [49, 50, 51, 52, 71, 69, 84, 32, 102, 111, 111, 10] ⟨49, 50, 51, 52⟩ [102, 111, 111]
    [98, 97, 114] rfl rfl rfl).1

/-- C25, as amended: when `ReadRequest` fails in the reader pump of a running
connection with an error of the underlying socket, the end of file after the
peer closed the connection, the pump does not exit and the connection is not
torn down: the token, the two halves of the socket, the queue and the store
are left as they are, and the pump goes on to the next pass of its loop, where
it reads from the socket again. -/
theorem ReadLoop_error (L : JSONLib (List Byte)) (c : ConnState) (data : Reader)
    (hrun : c.t.isRunning = true) (herr : (ReadRequest data).1 = Res.err Err.EOF) :
    TCPConn.ReadLoopBody L c data = (c, Ctl.next) ∧
    ∀ rest : List Reader, TCPConn.ReadLoop L c (data :: rest) = TCPConn.ReadLoop L c rest := by
  have hbody : TCPConn.ReadLoopBody L c data = (c, Ctl.next) := by
    simp only [TCPConn.ReadLoopBody, herr]
  refine ⟨hbody, fun rest => ?_⟩
  rw [ReadLoop_cons L c data rest hrun, hbody]

/-- Witness of C25 on a running connection whose socket delivers no byte
before the end of file. -/
theorem ReadLoop_error_witness :
    (ReadRequest []).1 = Res.err Err.EOF ∧
    TCPConn.ReadLoopBody entryLib ⟨⟨false, []⟩, NewInmemoryStore, false, false, []⟩ []
      = (⟨⟨false, []⟩, NewInmemoryStore, false, false, []⟩, Ctl.next) ∧
    ∀ rest : List Reader,
      TCPConn.ReadLoop entryLib ⟨⟨false, []⟩, NewInmemoryStore, false, false, []⟩ ([] :: rest)
        = TCPConn.ReadLoop entryLib ⟨⟨false, []⟩, NewInmemoryStore, false, false, []⟩ rest :=
  ⟨rfl, ReadLoop_error entryLib ⟨⟨false, []⟩, NewInmemoryStore, false, false, []⟩ [] rfl rfl⟩

/-- Counterexample to C25 as stated: on a running connection whose peer has
closed the socket, `ReadRequest` returns `io.EOF`, and the reader pump to which
two reads have returned the end of file has not returned, has closed neither
half of the socket and has not cancelled the token: it is at its next read. -/
theorem ReadLoop_after_eof_reads_again :
    (ReadRequest []).1 = Res.err Err.EOF ∧
    TCPConn.ReadLoop entryLib ⟨⟨false, []⟩, NewInmemoryStore, false, false, []⟩ [[], []]
      = (⟨⟨false, []⟩, NewInmemoryStore, false, false, []⟩, LoopEnd.waiting) := by
  exact ⟨rfl, rfl⟩

/-- C26: for every connection whose cancellation token has fired,
`TCPConn.Write` and `TCPConn.WriteUpdate` are no-ops: they send nothing on the
outbound queue, leave the connection as it is and return a nil error. -/
theorem Write_cancelled (t : TCPConn) (hc : t.cancelled = true) (data : List Byte)
    (update : Update) :
    t.Write data = (t, none) ∧ t.WriteUpdate update = (t, none) := by
  simp [TCPConn.Write, TCPConn.WriteUpdate, TCPConn.isRunning, hc]

/-- Witness of C26 on a cancelled connection holding one frame. -/
theorem Write_cancelled_witness :
    TCPConn.Write ⟨true, [[49, 50, 51, 52, 79, 75, 13, 10]]⟩ [49, 50, 51, 52, 79, 75, 13, 10]
      = (⟨true, [[49, 50, 51, 52, 79, 75, 13, 10]]⟩, none) ∧
    TCPConn.WriteUpdate ⟨true, [[49, 50, 51, 52, 79, 75, 13, 10]]⟩
        ⟨[102, 111, 111], [34, 98, 97, 114, 34]⟩
      = (⟨true, [[49, 50, 51, 52, 79, 75, 13, 10]]⟩, none) :=
  Write_cancelled ⟨true, [[49, 50, 51, 52, 79, 75, 13, 10]]⟩ rfl [49, 50, 51, 52, 79, 75, 13, 10]
    ⟨[102, 111, 111], [34, 98, 97, 114, 34]⟩

/-! ## The request identifiers of the client library -/

/-- A line `ReadBytes` returns starts with the first byte of the stream. -/
theorem ReadBytes_head (b : Byte) (xs : List Byte) :
    ∃ tl, (ReadBytes 10 (b :: xs)).1.1 = b :: tl := by
  by_cases hb : b = 10
  · exact ⟨[], by simp [ReadBytes, hb]⟩
  · exact ⟨(ReadBytes 10 xs).1.1, by simp [ReadBytes, hb]⟩

/-- A response whose first byte is not `*` is never decoded as an update. -/
theorem ReadResponse_not_update (id : RequestID) (hstar : id.b0 ≠ 42) (data : List Byte)
    (resp : Response) (hres : (ReadResponse (id.bytes ++ data)).1 = Res.ok resp) :
    resp.Typ ≠ ResponseType.RespUpdate := by
  obtain ⟨tl, htl⟩ := ReadBytes_head id.b0 ([id.b1, id.b2, id.b3] ++ data)
  have hin : id.bytes ++ data = id.b0 :: ([id.b1, id.b2, id.b3] ++ data) := by
    simp [RequestID.bytes]
  rw [hin] at hres
  rcases hrb : ReadBytes 10 (id.b0 :: ([id.b1, id.b2, id.b3] ++ data)) with ⟨⟨l, e⟩, r⟩
  rw [hrb] at htl
  simp only at htl
  subst htl
  have hupd : ¬ index (id.b0 :: tl) 0 = index PrefixUpdate 0 := by
    rw [index_zero_cons, show index PrefixUpdate 0 = some 42 from index_zero_cons _ _]
    simpa using hstar
  simp only [ReadResponse, hrb] at hres
  cases e with
  | some err => simp at hres
  | none =>
    simp only [hupd, if_false] at hres
    intro htyp
    repeat' (first
      | (simp at hres; done)
      | (simp at hres; subst hres; simp at htyp)
      | split at hres)

/-- C27, as amended: the identifier `getNextRequestID` issues is the
little-endian encoding of the new value of the counter, so its first byte is
that value modulo 256; whenever that value is not congruent to 42 modulo 256,
the first byte differs from the update prefix `*` and `ReadResponse` never
classifies a response that starts with the identifier as an update. -/
theorem getNextRequestID_first_byte (n : Nat)
    (h : (Conn.getNextRequestID n).1 % 256 ≠ 42) :
    (Conn.getNextRequestID n).2 = PutUint32 (Conn.getNextRequestID n).1 ∧
    (Conn.getNextRequestID n).2.b0 = (Conn.getNextRequestID n).1 % 256 ∧
    (Conn.getNextRequestID n).2.b0 ≠ 42 ∧
    ∀ (data : List Byte) (resp : Response),
      (ReadResponse ((Conn.getNextRequestID n).2.bytes ++ data)).1 = Res.ok resp →
        resp.Typ ≠ ResponseType.RespUpdate := by
  have h0 : (Conn.getNextRequestID n).2.b0 = (Conn.getNextRequestID n).1 % 256 := rfl
  refine ⟨rfl, h0, ?_, ?_⟩
  · rw [h0]; exact h
  · intro data resp hres
    exact ReadResponse_not_update _ (by rw [h0]; exact h) data resp hres

/-- Witness of C27 at the counter value 0, whose identifier is `1 0 0 0`. -/
theorem getNextRequestID_first_byte_witness :
    (Conn.getNextRequestID 0).2 = PutUint32 (Conn.getNextRequestID 0).1 ∧
    (Conn.getNextRequestID 0).2.b0 = (Conn.getNextRequestID 0).1 % 256 ∧
    (Conn.getNextRequestID 0).2.b0 ≠ 42 ∧
    ∀ (data : List Byte) (resp : Response),
      (ReadResponse ((Conn.getNextRequestID 0).2.bytes ++ data)).1 = Res.ok resp →
        resp.Typ ≠ ResponseType.RespUpdate :=
  getNextRequestID_first_byte 0 (by decide)

/-- Counterexample to C27 as stated: at the counter value 41 (the 42nd
identifier of a connection) `getNextRequestID` issues the identifier
`42 0 0 0`, whose first byte is `*`; `ReadResponse` applied to the `PONG`
response to it, followed by the `PONG` response to the next identifier,
returns a response of type UPDATE. -/
theorem getNextRequestID_issues_star :
    Conn.getNextRequestID 41 = (42, ⟨42, 0, 0, 0⟩) ∧
    (Conn.getNextRequestID 41).2.b0 = 42 ∧
    (ReadResponse ((WriteString recorder [] ⟨42, 0, 0, 0⟩ [80, 79, 78, 71]).1.flatten
        ++ (WriteString recorder [] ⟨43, 0, 0, 0⟩ [80, 79, 78, 71]).1.flatten)).1
      = Res.ok { Typ := ResponseType.RespUpdate, RequestID := RequestID.zero,
                 Args := [Arg.bytes [0, 0, 0, 80, 79, 78, 71, 13]],
                 Value := [43, 0, 0, 0, 80, 79, 78, 71] } := by
  exact ⟨rfl, rfl, rfl⟩

/-! ## Panics of `ReadRequest` -/

/-- A stream either has no line feed or splits at its first line feed. -/
theorem first_line_cases (s : List Byte) :
    10 ∉ s ∨ ∃ line rest, 10 ∉ line ∧ s = line ++ 10 :: rest := by
  induction s with
  | nil => left; simp
  | cons b bs ih =>
    by_cases hb : b = 10
    · right; exact ⟨[], bs, by simp, by simp [hb]⟩
    · rcases ih with h | ⟨line, rest, hl, rfl⟩
      · left
        simp only [List.mem_cons, not_or]
        exact ⟨fun e => hb e.symm, h⟩
      · right
        refine ⟨b :: line, rest, ?_, by simp⟩
        simp only [List.mem_cons, not_or]
        exact ⟨fun e => hb e.symm, hl⟩

/-- `RemoveTrailingCR` panics on the empty slice only. -/
theorem RemoveTrailingCR_none (d : List Byte) (h : RemoveTrailingCR d = none) : d = [] := by
  rcases List.eq_nil_or_concat d with h0 | ⟨l, x, h0⟩
  · exact h0
  · have hd : d = l ++ [x] := by simpa using h0
    subst hd
    by_cases hx : x = 13
    · subst hx; rw [RemoveTrailingCR_cr] at h; simp at h
    · rw [RemoveTrailingCR_keep _ (by simp) (by simpa using hx)] at h; simp at h

/-- The value line of a `SET` request panics only when it is empty. -/
theorem value_line_none (r : List Byte) (value : List Byte) (r1 : Reader)
    (hrb : ReadBytes 10 r = ((value, none), r1))
    (h : (slice value 0 ((value.length : Int) - 1)).bind RemoveTrailingCR = none) :
    ∃ rest, r = 10 :: rest := by
  rcases first_line_cases r with hno | ⟨line, rest, hl, rfl⟩
  · rw [ReadBytes_eof r hno] at hrb; simp at hrb
  · rw [ReadBytes_line line rest hl] at hrb
    simp only [Prod.mk.injEq, and_true, true_and] at hrb
    obtain ⟨rfl, _⟩ := hrb
    rw [slice_init] at h
    have := RemoveTrailingCR_none line (by simpa using h)
    subst this
    exact ⟨rest, rfl⟩

/-- `ReadRequest` panics only on a `GET` or `SET` line whose key is empty and
on a `SET` request whose value line is empty: every other index and slice it
takes is in range. -/
theorem ReadRequest_panics_only_on_empty (input : List Byte)
    (h : (ReadRequest input).1 = Res.panic) :
    ∃ (id : RequestID) (rest : List Byte),
      input = id.bytes ++ [71, 69, 84, 32] ++ 10 :: rest ∨
      input = id.bytes ++ [83, 69, 84, 32] ++ 10 :: rest ∨
      ∃ key, key ≠ [] ∧ 10 ∉ key ∧ input = id.bytes ++ [83, 69, 84, 32] ++ key ++ 10 :: 10 :: rest := by
  rcases first_line_cases input with hno | ⟨line, rest, hl, rfl⟩
  · simp only [ReadRequest, ReadBytes_eof input hno] at h
    simp at h
  · by_cases hlen : (line ++ [10]).length < 9
    · simp only [ReadRequest, ReadBytes_line line rest hl, hlen, if_true] at h
      simp at h
    · have hlen9 : 9 ≤ (line ++ [10]).length := by omega
      match line, hl, hlen9 with
      | a :: b :: c :: d :: x0 :: x1 :: x2 :: x3 :: m, hl, _ =>
        have hid : 10 ∉ (RequestID.mk a b c d).bytes := by
          intro h; apply hl
          simp only [RequestID.bytes, List.mem_cons, List.mem_nil_iff, or_false] at h
          simp only [List.mem_cons]; tauto
        have hcmd : 10 ∉ x0 :: x1 :: x2 :: x3 :: m := by
          intro h; apply hl
          simp only [List.mem_cons] at h ⊢; tauto
        have hm : 10 ∉ m := fun hh => hcmd (by simp [hh])
        have hin : (a :: b :: c :: d :: x0 :: x1 :: x2 :: x3 :: m) ++ 10 :: rest
            = (RequestID.mk a b c d).bytes ++ (x0 :: x1 :: x2 :: x3 :: m) ++ 10 :: rest := by
          simp [RequestID.bytes]
        rw [hin, ReadRequest_line _ _ rest hid hcmd (by simp)] at h
        rw [hin]
        simp only [index_three, slice_drop4, Option.some_bind] at h
        refine ⟨⟨a, b, c, d⟩, ?_⟩
        by_cases h1 : HasPrefix (x0 :: x1 :: x2 :: x3 :: m) PrefixQuit = true
        · simp [h1] at h
        by_cases h2 : HasPrefix (x0 :: x1 :: x2 :: x3 :: m) PrefixPing = true
        · simp [h1, h2] at h
        by_cases h3 : HasPrefix (x0 :: x1 :: x2 :: x3 :: m) PrefixGet = true
        · simp only [h1, h2, h3, if_true, if_false] at h
          have hx := h3
          simp only [HasPrefix, PrefixGet, List.isPrefixOf, Bool.and_eq_true, beq_iff_eq,
            Bool.and_true] at hx
          obtain ⟨rfl, rfl, rfl⟩ := hx
          by_cases hx3 : x3 = 32
          · subst hx3
            cases hk : RemoveTrailingCR m with
            | none =>
              have hmnil := RemoveTrailingCR_none m hk
              subst hmnil
              exact ⟨rest, Or.inl rfl⟩
            | some key =>
              simp only [hk, ne_eq, not_true_eq_false, if_false] at h
              exact absurd h (by simp)
          · simp only [ne_eq, hx3, not_false_eq_true, if_true] at h
            exact absurd h (by simp)
        by_cases h4 : HasPrefix (x0 :: x1 :: x2 :: x3 :: m) PrefixSet = true
        · simp only [h1, h2, h3, h4, if_true, if_false] at h
          have hx := h4
          simp only [HasPrefix, PrefixSet, List.isPrefixOf, Bool.and_eq_true, beq_iff_eq,
            Bool.and_true] at hx
          obtain ⟨rfl, rfl, rfl⟩ := hx
          by_cases hx3 : x3 = 32
          · subst hx3
            cases hk : RemoveTrailingCR m with
            | none =>
              have hmnil := RemoveTrailingCR_none m hk
              subst hmnil
              exact ⟨rest, Or.inr (Or.inl rfl)⟩
            | some key =>
              have hmne : m ≠ [] := by
                intro e; subst e
                have hnil : RemoveTrailingCR [] = none := rfl
                rw [hnil] at hk
                cases hk
              simp only [hk, ne_eq, not_true_eq_false, if_false] at h
              rcases hrb : ReadBytes 10 rest with ⟨⟨value, err⟩, r1⟩
              rw [hrb] at h
              cases err with
              | some e => simp at h
              | none =>
                simp only at h
                cases hv : (slice value 0 ((value.length : Int) - 1)).bind RemoveTrailingCR with
                | none =>
                  obtain ⟨rest2, rfl⟩ := value_line_none rest value r1 hrb hv
                  exact ⟨rest2, Or.inr (Or.inr ⟨m, hmne, hm, by simp⟩)⟩
                | some v =>
                  simp only [hv] at h
                  exact absurd h (by simp)
          · simp only [ne_eq, hx3, not_false_eq_true, if_true] at h
            exact absurd h (by simp)
        · simp [h1, h2, h3, h4] at h

/-- C28, evaluated on the code: `ReadRequest` panics on `1234GET \n` and on
`1234SET \n` (empty key) and on `1234SET k\n\n` (empty value line), where
`RemoveTrailingCR` tests the last byte of an empty slice; these are its only
panics, the indices `rawCommand[3]`, `rawReq[:4]` and `value[:len(value)-1]`
being in range on every input. -/
theorem ReadRequest_panics :
    (ReadRequest [49, 50, 51, 52, 71, 69, 84, 32, 10]).1 = Res.panic ∧
    (ReadRequest [49, 50, 51, 52, 83, 69, 84, 32, 10]).1 = Res.panic ∧
    (ReadRequest [49, 50, 51, 52, 83, 69, 84, 32, 107, 10, 10]).1 = Res.panic ∧
    (∀ input : List Byte, (ReadRequest input).1 = Res.panic →
      ∃ (id : RequestID) (rest : List Byte),
        input = id.bytes ++ [71, 69, 84, 32] ++ 10 :: rest ∨
        input = id.bytes ++ [83, 69, 84, 32] ++ 10 :: rest ∨
        ∃ key, key ≠ [] ∧ 10 ∉ key ∧
          input = id.bytes ++ [83, 69, 84, 32] ++ key ++ 10 :: 10 :: rest) :=
  ⟨rfl, rfl, rfl, ReadRequest_panics_only_on_empty⟩

/-! ## A failed `Set` -/

/-- A `Set` the library rejects returns the library's error, publishes
nothing, and leaves as the document the first result of `SetBytes`. -/
theorem Set_failure {Val : Type} (L : JSONLib Val) (i : InmemoryStore) (k : List Byte) (v : Val)
    (e : Err) (h : (L.SetBytes i.values k v).2 = some e) :
    i.Set L k v = ({ i with values := (L.SetBytes i.values k v).1 }, Res.err e) := by
  simp only [InmemoryStore.Set, h]

/-- C29, evaluated on the code: a `Set` the JSON library rejects publishes no
update but stores the first result of `SetBytes` as the document, whatever it
is, because the result is assigned before the error is tested. For a value
that cannot be marshalled, a channel, the library returns a nil document
beside its error: a store restored from `foo:bar` with one subscriber loses
its document in the rejected `Set(foo, channel)`, after which `Backup` returns
`{}` instead of `foo:bar` and `Get(foo)` returns no bytes instead of `bar`.
For the empty key the library returns the document it was given beside its
error, and the document is kept. -/
theorem Set_failure_overwrites :
    (∀ (Val : Type) (L : JSONLib Val) (i : InmemoryStore) (k : List Byte) (v : Val) (e : Err),
      (L.SetBytes i.values k v).2 = some e →
        (i.Set L k v).2 = Res.err e ∧
        (i.Set L k v).1.updateChans = i.updateChans ∧
        (i.Set L k v).1.values = (L.SetBytes i.values k v).1) ∧
    ((NewInmemoryStore.Restore [102, 111, 111, 58, 98, 97, 114]).1.ListenToUpdates.1.Backup
        = Res.ok [102, 111, 111, 58, 98, 97, 114] ∧
     (NewInmemoryStore.Restore [102, 111, 111, 58, 98, 97, 114]).1.ListenToUpdates.1.Get valueLib
        [102, 111, 111] = Res.ok [98, 97, 114] ∧
     ((NewInmemoryStore.Restore [102, 111, 111, 58, 98, 97, 114]).1.ListenToUpdates.1.Set valueLib
        [102, 111, 111] GoValue.channel).2
        = Res.err (Err.New (ascii "json: unsupported type: chan int")) ∧
     ((NewInmemoryStore.Restore [102, 111, 111, 58, 98, 97, 114]).1.ListenToUpdates.1.Set valueLib
        [102, 111, 111] GoValue.channel).1.updateChans
        = (NewInmemoryStore.Restore [102, 111, 111, 58, 98, 97, 114]).1.ListenToUpdates.1.updateChans ∧
     ((NewInmemoryStore.Restore [102, 111, 111, 58, 98, 97, 114]).1.ListenToUpdates.1.Set valueLib
        [102, 111, 111] GoValue.channel).1.Backup = Res.ok [123, 125] ∧
     ((NewInmemoryStore.Restore [102, 111, 111, 58, 98, 97, 114]).1.ListenToUpdates.1.Set valueLib
        [102, 111, 111] GoValue.channel).1.Get valueLib [102, 111, 111] = Res.ok []) ∧
    (((NewInmemoryStore.Restore [102, 111, 111, 58, 98, 97, 114]).1.ListenToUpdates.1.Set valueLib
        [] (GoValue.bytes [120])).2 = Res.err (Err.New (ascii "path cannot be empty")) ∧
     ((NewInmemoryStore.Restore [102, 111, 111, 58, 98, 97, 114]).1.ListenToUpdates.1.Set valueLib
        [] (GoValue.bytes [120])).1.Backup = Res.ok [102, 111, 111, 58, 98, 97, 114]) := by
  refine ⟨?_, ⟨rfl, rfl, rfl, rfl, rfl, rfl⟩, ⟨rfl, rfl⟩⟩
  intro Val L i k v e h
  rw [Set_failure L i k v e h]
  exact ⟨rfl, rfl, rfl⟩

end Pharos
